import Mathlib

/-!
# Security Lake subscriber notification resource

Shallow embedding of `internal/service/securitylake/subscriber_notification.go`.

* Go pointers (`*string`, typed nil members) are `Option`.
* A Go `error` value is `Option Err` (`none` is `nil`).
* A Go run-time panic (index out of range, `errs.Must` on an error) is the
  result `none` of a function returning `Option`.
* The remote service is a parameter: a record of operations over an abstract
  remote state, and every handler records the remote calls it makes.
* Go strings are byte strings; the only separator used is the ASCII comma, so
  splitting on characters and splitting on bytes agree on valid UTF-8.
-/

namespace SecurityLake

/-! ## Framework values -/

/-- Value of the plugin framework type `types.String`. -/
inductive TFString where
  | null
  | unknown
  | value (s : String)
  deriving DecidableEq, Repr

/-- Method `ValueString`: the known string, or the empty string for null and unknown. -/
def TFString.ValueString : TFString → String
  | TFString.value s => s
  | _ => ""

/-- Method `ValueStringPointer`: nil for null, otherwise a pointer to the stored string. -/
def TFString.ValueStringPointer : TFString → Option String
  | TFString.null => none
  | TFString.unknown => some ""
  | TFString.value s => some s

/-- The table `lowerhex` of the Go package strconv. -/
def lowerhex (n : Nat) : Char :=
  "0123456789abcdef".data.getD (n % 16) '0'

/-- The hexadecimal digits of a rune at the given shifts, as `appendEscapedRune` emits
them. -/
def hexDigits (r : Nat) (shifts : List Nat) : List Char :=
  shifts.map (fun shift => lowerhex ((r >>> shift) % 16))

/-- The function `appendEscapedRune` of the Go package strconv, for the double quote and
with `ASCIIonly` and `graphicOnly` false, over the Unicode table `IsPrint`: the quote
(34) and the backslash (92) are backslashed, printable runes are copied, the seven named
control characters get their letter, and the rest is written in hexadecimal. A `Char`
is always a valid rune, so the replacement by U+FFFD never applies. -/
def appendEscapedRune (IsPrint : Char → Bool) (r : Char) : List Char :=
  if r = Char.ofNat 34 ∨ r = Char.ofNat 92 then [Char.ofNat 92, r]
  else if IsPrint r then [r]
  else if r = Char.ofNat 7 then [Char.ofNat 92, 'a']
  else if r = Char.ofNat 8 then [Char.ofNat 92, 'b']
  else if r = Char.ofNat 12 then [Char.ofNat 92, 'f']
  else if r = Char.ofNat 10 then [Char.ofNat 92, 'n']
  else if r = Char.ofNat 13 then [Char.ofNat 92, 'r']
  else if r = Char.ofNat 9 then [Char.ofNat 92, 't']
  else if r = Char.ofNat 11 then [Char.ofNat 92, 'v']
  else if r.toNat < 32 ∨ r.toNat = 127 then
    [Char.ofNat 92, 'x', lowerhex (r.toNat / 16), lowerhex (r.toNat % 16)]
  else if r.toNat < 65536 then
    Char.ofNat 92 :: 'u' :: hexDigits r.toNat [12, 8, 4, 0]
  else
    Char.ofNat 92 :: 'U' :: hexDigits r.toNat [28, 24, 20, 16, 12, 8, 4, 0]

/-- The function `strconv.Quote`, which is what the verb `%q` applies to a string: the
escaped runes between two double quotes. -/
def strconvQuote (IsPrint : Char → Bool) (s : String) : String :=
  String.mk (Char.ofNat 34 :: ((s.data.map (appendEscapedRune IsPrint)).flatten
    ++ [Char.ofNat 34]))

/-- Method `String` of `types.String`, the human readable rendering: a known value is
formatted with `%q`. -/
def TFString.String (v : TFString) (IsPrint : Char → Bool) : String :=
  match v with
  | TFString.null => "<null>"
  | TFString.unknown => "<unknown>"
  | TFString.value s => strconvQuote IsPrint s

/-- Modelled from the spec: `fwflex.StringFromFramework` (internal/framework/flex, not
under src/): nil for a null or unknown value, otherwise a pointer to the string. -/
def StringFromFramework : TFString → Option String
  | TFString.value s => some s
  | _ => none

/-- Modelled from the spec: `fwflex.StringToFramework` (internal/framework/flex, not
under src/): null for a nil pointer, otherwise the known string. -/
def StringToFramework : Option String → TFString
  | none => TFString.null
  | some s => TFString.value s

/-- The helper `aws.ToString`: dereference, with nil read as the empty string. -/
def awsToString : Option String → String
  | none => ""
  | some s => s

/-- Value of a framework list (`ListNestedObjectValueOf`): null, unknown or known elements. -/
inductive TFList (α : Type) where
  | null
  | unknown
  | known (elems : List α)
  deriving DecidableEq, Repr

/-- Method `IsNull` of a list value. -/
def TFList.IsNull {α : Type} : TFList α → Bool
  | TFList.null => true
  | _ => false

/-- Method `Elements` of a list value: the stored elements, none for null and unknown. -/
def TFList.Elements {α : Type} : TFList α → List α
  | TFList.known l => l
  | _ => []

/-! ## Diagnostics -/

/-- Severity of a diagnostic. -/
inductive Severity where
  | error
  | warning
  deriving DecidableEq, Repr

/-- One framework diagnostic. -/
structure Diagnostic where
  severity : Severity
  summary : String
  detail : String
  deriving DecidableEq, Repr

/-- Method `HasError` of `diag.Diagnostics`. -/
def HasError (ds : List Diagnostic) : Bool :=
  ds.any (fun d => d.severity == Severity.error)

/-- Method `Append` of `diag.Diagnostics`: appends each diagnostic not already present. -/
def Append (ds : List Diagnostic) (new : List Diagnostic) : List Diagnostic :=
  new.foldl (fun acc d => if acc.contains d then acc else acc ++ [d]) ds

/-- Method `AddError` of `diag.Diagnostics`. -/
def AddError (ds : List Diagnostic) (summary detail : String) : List Diagnostic :=
  Append ds [⟨Severity.error, summary, detail⟩]

/-- Method `ElementsAs` of a list value with `allowUnhandled = false`, into a Go slice:
a null list gives the nil slice, an unknown list gives an error diagnostic. -/
def TFList.ElementsAs {α : Type} : TFList α → List Diagnostic × List α
  | TFList.null => ([], [])
  | TFList.unknown =>
      ([⟨Severity.error, "Value Conversion Error", "unhandled unknown value"⟩], [])
  | TFList.known l => ([], l)

/-! ## Errors -/

/-- Go error values that the resource distinguishes, with `wrapped` for `%w` chains. -/
inductive Err where
  | notFoundError (msg : String)
  | emptyResultError
  | resourceNotFoundException (msg : String)
  | other (msg : String)
  | wrapped (msg : String) (inner : Err)
  deriving DecidableEq, Repr

/-- Method `Error` of a Go error: its message. -/
def Err.Error : Err → String
  | Err.notFoundError msg => msg
  | Err.emptyResultError => "empty result"
  | Err.resourceNotFoundException msg => "ResourceNotFoundException: " ++ msg
  | Err.other msg => msg
  | Err.wrapped msg _ => msg

/-- The test `errors.As(err, &nfe)` for `*awstypes.ResourceNotFoundException`. -/
def Err.asResourceNotFoundException : Err → Bool
  | Err.resourceNotFoundException _ => true
  | Err.wrapped _ inner => inner.asResourceNotFoundException
  | _ => false

/-- The test `errors.As` for `*retry.NotFoundError` or `*tfresource.EmptyResultError`. -/
def Err.asNotFound : Err → Bool
  | Err.notFoundError _ => true
  | Err.emptyResultError => true
  | Err.wrapped _ inner => inner.asNotFound
  | _ => false

/-- Modelled from the spec: `tfresource.NotFound` (internal/tfresource, not under src/),
the distinguished not-found condition; false for a nil error. -/
def NotFound : Option Err → Bool
  | none => false
  | some e => e.asNotFound

/-! ## Compound identifiers -/

/-- The function `strings.Split(s, sep)` for a one-character separator, on characters. -/
def splitSep (sep : Char) : List Char → List (List Char)
  | [] => [[]]
  | c :: cs =>
      if c = sep then [] :: splitSep sep cs
      else
        match splitSep sep cs with
        | [] => [[c]]
        | p :: ps => (c :: p) :: ps

/-- The constant `flex.ResourceIdSeparator`. -/
def ResourceIdSeparator : Char := ','

/-- The call `strings.Split(id, ResourceIdSeparator)`. -/
def stringsSplit (id : String) : List String :=
  (splitSep ResourceIdSeparator id.data).map String.mk

/-- The call `strings.Join(parts, ResourceIdSeparator)`. -/
def stringsJoin : List String → String
  | [] => ""
  | [a] => a
  | a :: b :: rest => a ++ String.singleton ResourceIdSeparator ++ stringsJoin (b :: rest)

/-- Modelled from the spec: `flex.ExpandResourceId` (internal/flex, not under src/), which
parses a compound identifier back into its parts: the identifier is split on the
delimiter, there must be more than one part, exactly `partCount` parts, and, unless
empty parts are allowed, no empty part. -/
def ExpandResourceId (id : String) (partCount : Nat) (allowEmptyPart : Bool) :
    Except Err (List String) :=
  let idParts := stringsSplit id
  if idParts.length ≤ 1 then
    Except.error (Err.other ("unexpected format for ID (" ++ id ++ "), expected more than one part"))
  else if idParts.length ≠ partCount then
    Except.error (Err.other ("unexpected format for ID (" ++ id ++ "), expected "
      ++ toString partCount ++ " parts"))
  else if !allowEmptyPart && idParts.any (fun part => part == "") then
    Except.error (Err.other ("unexpected format for ID (" ++ id
      ++ "), the following id parts indexes are blank"))
  else
    Except.ok idParts

/-- Modelled from the spec: `flex.FlattenResourceId` (internal/flex, not under src/), which
builds a compound identifier by joining its parts with the delimiter, under the same
checks on the parts as `ExpandResourceId`. -/
def FlattenResourceId (idParts : List String) (partCount : Nat) (allowEmptyPart : Bool) :
    Except Err String :=
  if idParts.length ≤ 1 then
    Except.error (Err.other "unexpected format for ID parts, expected more than one part")
  else if idParts.length ≠ partCount then
    Except.error (Err.other ("unexpected format for ID parts, expected "
      ++ toString partCount ++ " parts"))
  else if !allowEmptyPart && idParts.any (fun part => part == "") then
    Except.error (Err.other "unexpected format for ID parts, the following id parts indexes are blank")
  else
    Except.ok (stringsJoin idParts)

/-! ## Resource model -/

/-- The struct `sqsNotificationConfigurationModel` (no fields). -/
structure sqsNotificationConfigurationModel where
  deriving DecidableEq, Repr

/-- The struct `httpsNotificationConfigurationModel`. -/
structure httpsNotificationConfigurationModel where
  Endpoint : TFString
  TargetRoleArn : TFString
  AuthorizationApiKeyName : TFString
  AuthorizationApiKeyValue : TFString
  HTTPMethod : TFString
  deriving DecidableEq, Repr

/-- The struct `subscriberNotificationResourceConfigurationModel`. -/
structure subscriberNotificationResourceConfigurationModel where
  SqsNotificationConfiguration : TFList sqsNotificationConfigurationModel
  HTTPSNotificationConfiguration : TFList httpsNotificationConfigurationModel
  deriving DecidableEq, Repr

/-- The struct `subscriberNotificationResourceModel`. -/
structure subscriberNotificationResourceModel where
  Configuration : TFList subscriberNotificationResourceConfigurationModel
  EndpointID : TFString
  SubscriberID : TFString
  ID : TFString
  deriving DecidableEq, Repr

/-- The constant `subscriberNotificationIdPartCount`. -/
def subscriberNotificationIdPartCount : Nat := 2

/-- Method `InitFromID`: the model after the call and the returned error. The read of
`parts[0]` is in range because a successful `ExpandResourceId` returns two parts. -/
def InitFromID (data : subscriberNotificationResourceModel) :
    subscriberNotificationResourceModel × Option Err :=
  let id := data.ID.ValueString
  match ExpandResourceId id subscriberNotificationIdPartCount false with
  | Except.error err => (data, some err)
  | Except.ok parts => ({ data with SubscriberID := TFString.value (parts.getD 0 "") }, none)

/-- Method `setID`: `none` is the panic of `errs.Must` on an error. -/
def setID (data : subscriberNotificationResourceModel) :
    Option subscriberNotificationResourceModel :=
  match FlattenResourceId [data.SubscriberID.ValueString, "notification"]
      subscriberNotificationIdPartCount false with
  | Except.error _ => none
  | Except.ok id => some { data with ID := TFString.value id }

/-! ## Remote service -/

/-- The struct `awstypes.HttpsNotificationConfiguration`. -/
structure HttpsNotificationConfiguration where
  Endpoint : Option String
  TargetRoleArn : Option String
  AuthorizationApiKeyName : Option String
  AuthorizationApiKeyValue : Option String
  HttpMethod : String
  deriving DecidableEq, Repr

/-- The struct `awstypes.SqsNotificationConfiguration` (no fields). -/
structure SqsNotificationConfiguration where
  deriving DecidableEq, Repr

/-- The interface `awstypes.NotificationConfiguration` with its two members; each member is
held by pointer, and the pointer may be nil. -/
inductive NotificationConfiguration where
  | MemberSqsNotificationConfiguration (p : Option SqsNotificationConfiguration)
  | MemberHttpsNotificationConfiguration (p : Option HttpsNotificationConfiguration)
  deriving DecidableEq, Repr

/-- The struct `securitylake.CreateSubscriberNotificationInput`. -/
structure CreateSubscriberNotificationInput where
  SubscriberId : Option String
  Configuration : NotificationConfiguration
  deriving DecidableEq, Repr

/-- The struct `securitylake.UpdateSubscriberNotificationInput`. -/
structure UpdateSubscriberNotificationInput where
  SubscriberId : Option String
  Configuration : NotificationConfiguration
  deriving DecidableEq, Repr

/-- The struct `securitylake.DeleteSubscriberNotificationInput`. -/
structure DeleteSubscriberNotificationInput where
  SubscriberId : Option String
  deriving DecidableEq, Repr

/-- The fields of `awstypes.SubscriberResource` that the resource reads. -/
structure SubscriberResource where
  SubscriberId : Option String
  SubscriberEndpoint : Option String
  deriving DecidableEq, Repr

/-- One remote call, as recorded by the handlers. -/
inductive Call where
  | CreateSubscriberNotification (input : CreateSubscriberNotificationInput)
  | UpdateSubscriberNotification (input : UpdateSubscriberNotificationInput)
  | DeleteSubscriberNotification (input : DeleteSubscriberNotificationInput)
  | findSubscriberByID (subscriberID : String)
  deriving DecidableEq, Repr

/-- The environment of the handlers, over a remote state `σ`: the three client operations,
the lookup `findSubscriberByID` (subscriber.go, not under src/) and the message builder
`create.ProblemStandardMessage` (internal/create, not under src/), applied to the action,
the resource name, the identifier and the error; and the Unicode table `IsPrint` that
`%q` consults. -/
structure Conn (σ : Type) where
  CreateSubscriberNotification : σ → CreateSubscriberNotificationInput → Option Err × σ
  UpdateSubscriberNotification : σ → UpdateSubscriberNotificationInput → Option Err × σ
  DeleteSubscriberNotification : σ → DeleteSubscriberNotificationInput → Option Err × σ
  findSubscriberByID : σ → String → (Option SubscriberResource × Option Err) × σ
  ProblemStandardMessage : String → String → String → Err → String
  IsPrint : Char → Bool

/-- The constant `ResNameSubscriberNotification`. -/
def ResNameSubscriberNotification : String := "Subscriber Notification"

/-- The constant `create.ErrActionUpdating`. -/
def ErrActionUpdating : String := "updating"

/-- The constant `create.ErrActionDeleting`. -/
def ErrActionDeleting : String := "deleting"

/-- What a handler did to `response.State`. -/
inductive StateAction where
  | untouched
  | removed
  | set (data : subscriberNotificationResourceModel)
  deriving DecidableEq, Repr

/-- The observable result of a handler: its diagnostics, what it did to the state, the
remote calls it made in order, and the remote state it left. -/
structure Response (σ : Type) where
  Diagnostics : List Diagnostic
  State : StateAction
  calls : List Call
  remote : σ

/-! ## Expanders and finder -/

/-- The function `expandSQSNotificationConfigurationModel`. -/
def expandSQSNotificationConfigurationModel
    (SQSNotifications : List sqsNotificationConfigurationModel) :
    Option SqsNotificationConfiguration :=
  if SQSNotifications.length = 0 then none
  else some {}

/-- The function `expandHTTPSNotificationConfigurationModel`. -/
def expandHTTPSNotificationConfigurationModel
    (HTTPSNotifications : List httpsNotificationConfigurationModel) :
    Option HttpsNotificationConfiguration :=
  match HTTPSNotifications with
  | [] => none
  | first :: _ =>
    let httpMethod := awsToString (StringFromFramework first.HTTPMethod)
    some {
      Endpoint := StringFromFramework first.Endpoint
      TargetRoleArn := StringFromFramework first.TargetRoleArn
      AuthorizationApiKeyName := StringFromFramework first.AuthorizationApiKeyName
      AuthorizationApiKeyValue := StringFromFramework first.AuthorizationApiKeyValue
      HttpMethod := httpMethod }

/-- The loop body of `expandSubscriberNotificationResourceConfiguration` for one item, on
the accumulated slice and diagnostics. -/
def expandItem (acc : List NotificationConfiguration × List Diagnostic)
    (item : subscriberNotificationResourceConfigurationModel) :
    List NotificationConfiguration × List Diagnostic :=
  let acc1 :=
    if !item.SqsNotificationConfiguration.IsNull
        && decide (item.SqsNotificationConfiguration.Elements.length > 0) then
      let r := item.SqsNotificationConfiguration.ElementsAs
      (acc.1 ++ [NotificationConfiguration.MemberSqsNotificationConfiguration
          (expandSQSNotificationConfigurationModel r.2)], Append acc.2 r.1)
    else acc
  if !item.HTTPSNotificationConfiguration.IsNull
      && decide (item.HTTPSNotificationConfiguration.Elements.length > 0) then
    let r := item.HTTPSNotificationConfiguration.ElementsAs
    (acc1.1 ++ [NotificationConfiguration.MemberHttpsNotificationConfiguration
        (expandHTTPSNotificationConfigurationModel r.2)], Append acc1.2 r.1)
  else acc1

/-- The function `expandSubscriberNotificationResourceConfiguration`; `none` is the panic
of `configuration[0]` on an empty slice. -/
def expandSubscriberNotificationResourceConfiguration
    (models : List subscriberNotificationResourceConfigurationModel) :
    Option (NotificationConfiguration × List Diagnostic) :=
  let r := models.foldl expandItem ([], [])
  match r.1 with
  | [] => none
  | first :: _ => some (first, r.2)

/-- The function `findSubscriberNotificationByEndPointID`: the resource ID pointer, the
endpoint pointer and the error, with the call it records and the remote state after. -/
def findSubscriberNotificationByEndPointID {σ : Type} (conn : Conn σ) (st : σ)
    (subscriberID : String) : (Option String × Option String × Option Err) × σ :=
  let r := conn.findSubscriberByID st subscriberID
  match r.1.2 with
  | some err => ((none, none, some err), r.2)
  | none =>
    match r.1.1 with
    | none => ((none, none, some Err.emptyResultError), r.2)
    | some output =>
      match output.SubscriberEndpoint with
      | none => ((none, none, some Err.emptyResultError), r.2)
      | some endpoint =>
        let resourceID :=
          awsToString output.SubscriberId ++ String.singleton ',' ++ "notification"
        ((some resourceID, some endpoint, none), r.2)

/-! ## Handlers

Each handler takes the pair returned by the framework decoding (`request.Plan.Get` or
`request.State.Get`): the diagnostics and the decoded model. The diagnostics of the
response are empty on entry, and `response.State.Set` writes the model without adding a
diagnostic. -/

/-- The handler `Create`. -/
def Create {σ : Type} (conn : Conn σ) (st : σ)
    (planGet : List Diagnostic × subscriberNotificationResourceModel) :
    Option (Response σ) :=
  let data := planGet.2
  let diags := Append [] planGet.1
  if HasError diags then some ⟨diags, StateAction.untouched, [], st⟩
  else
    let cd := data.Configuration.ElementsAs
    let diags := Append diags cd.1
    if HasError diags then some ⟨diags, StateAction.untouched, [], st⟩
    else
      match expandSubscriberNotificationResourceConfiguration cd.2 with
      | none => none
      | some (configuration, d) =>
        let diags := Append diags d
        let input : CreateSubscriberNotificationInput :=
          { SubscriberId := StringFromFramework data.SubscriberID
            Configuration := configuration }
        let c := conn.CreateSubscriberNotification st input
        let calls := [Call.CreateSubscriberNotification input]
        match c.1 with
        | some err =>
          some ⟨AddError diags "creating Security Lake Subscriber Notification" err.Error,
            StateAction.untouched, calls, c.2⟩
        | none =>
          let f := findSubscriberNotificationByEndPointID conn c.2 data.SubscriberID.ValueString
          let calls := calls ++ [Call.findSubscriberByID data.SubscriberID.ValueString]
          match f.1.2.2 with
          | some err =>
            some ⟨AddError diags "creating Security Lake Subscriber Notification" err.Error,
              StateAction.untouched, calls, f.2⟩
          | none =>
            match ExpandResourceId (awsToString f.1.1) subscriberNotificationIdPartCount false with
            | Except.error err =>
              some ⟨AddError diags "creating Security Lake Subscriber Notification" err.Error,
                StateAction.untouched, calls, f.2⟩
            | Except.ok parts =>
              let data1 := { data with
                SubscriberID := StringToFramework (some (parts.getD 0 ""))
                EndpointID := StringToFramework f.1.2.1 }
              match setID data1 with
              | none => none
              | some data2 => some ⟨diags, StateAction.set data2, calls, f.2⟩

/-- The handler `Read`. -/
def Read {σ : Type} (conn : Conn σ) (st : σ)
    (stateGet : List Diagnostic × subscriberNotificationResourceModel) :
    Response σ :=
  let diags := Append [] stateGet.1
  if HasError diags then ⟨diags, StateAction.untouched, [], st⟩
  else
    let i := InitFromID stateGet.2
    let data := i.1
    match i.2 with
    | some err => ⟨AddError diags "parsing resource ID" err.Error, StateAction.untouched, [], st⟩
    | none =>
      let f := findSubscriberNotificationByEndPointID conn st data.SubscriberID.ValueString
      let calls := [Call.findSubscriberByID data.SubscriberID.ValueString]
      if NotFound f.1.2.2 || f.1.1.isNone then ⟨diags, StateAction.removed, calls, f.2⟩
      else
        match ExpandResourceId (awsToString f.1.1) subscriberNotificationIdPartCount false with
        | Except.error err =>
          ⟨AddError diags "creating Security Lake Subscriber Notification" err.Error,
            StateAction.untouched, calls, f.2⟩
        | Except.ok parts =>
          let data1 := { data with
            SubscriberID := StringToFramework (some (parts.getD 0 ""))
            EndpointID := StringToFramework f.1.2.1 }
          ⟨diags, StateAction.set data1, calls, f.2⟩

/-- The handler `Update`. As in the source, the variable `old` is filled from the plan and
the variable `new` from the prior state. -/
def Update {σ : Type} (conn : Conn σ) (st : σ)
    (planGet stateGet : List Diagnostic × subscriberNotificationResourceModel) :
    Option (Response σ) :=
  let old := planGet.2
  let diags := Append [] planGet.1
  if HasError diags then some ⟨diags, StateAction.untouched, [], st⟩
  else
    let new := stateGet.2
    let diags := Append diags stateGet.1
    if HasError diags then some ⟨diags, StateAction.untouched, [], st⟩
    else if !(decide (old.Configuration = new.Configuration)) then
      let cd := new.Configuration.ElementsAs
      let diags := Append diags cd.1
      if HasError diags then some ⟨diags, StateAction.untouched, [], st⟩
      else
        match expandSubscriberNotificationResourceConfiguration cd.2 with
        | none => none
        | some (configuration, d) =>
          let diags := Append diags d
          if HasError diags then some ⟨diags, StateAction.untouched, [], st⟩
          else
            let input : UpdateSubscriberNotificationInput :=
              { SubscriberId := new.SubscriberID.ValueStringPointer
                Configuration := configuration }
            let u := conn.UpdateSubscriberNotification st input
            let calls := [Call.UpdateSubscriberNotification input]
            match u.1 with
            | some err =>
              some ⟨AddError diags
                  (conn.ProblemStandardMessage ErrActionUpdating ResNameSubscriberNotification
                    (new.ID.String conn.IsPrint) err) err.Error,
                StateAction.untouched, calls, u.2⟩
            | none => some ⟨diags, StateAction.set new, calls, u.2⟩
    else some ⟨diags, StateAction.set new, [], st⟩

/-- The handler `Delete`. -/
def Delete {σ : Type} (conn : Conn σ) (st : σ)
    (stateGet : List Diagnostic × subscriberNotificationResourceModel) :
    Response σ :=
  let data := stateGet.2
  let diags := Append [] stateGet.1
  if HasError diags then ⟨diags, StateAction.untouched, [], st⟩
  else
    let input : DeleteSubscriberNotificationInput :=
      { SubscriberId := StringFromFramework data.SubscriberID }
    let r := conn.DeleteSubscriberNotification st input
    let calls := [Call.DeleteSubscriberNotification input]
    match r.1 with
    | some err =>
      if err.asResourceNotFoundException then ⟨diags, StateAction.untouched, calls, r.2⟩
      else
        ⟨AddError diags
            (conn.ProblemStandardMessage ErrActionDeleting ResNameSubscriberNotification
              (data.ID.String conn.IsPrint) err) err.Error,
          StateAction.untouched, calls, r.2⟩
    | none => ⟨diags, StateAction.untouched, calls, r.2⟩

/-! ## Destroy check of the Data Lake acceptance tests -/

/-- The fields of `terraform.ResourceState` that the destroy check reads: `rs.Type` (named
`TypeName` here) and `rs.Primary.ID`. -/
structure ResourceState where
  TypeName : String
  PrimaryID : String
  deriving DecidableEq, Repr

/-- The constant `create.ErrActionCheckingDestroyed`. -/
def ErrActionCheckingDestroyed : String := "checking destroyed"

/-- Modelled from the spec: the constant `ResNameDataLake` (data_lake.go, not under src/),
the display name of the Data Lake resource. -/
def ResNameDataLake : String := "Data Lake"

/-- The environment of the destroy check: the error returned by `FindDataLakeByARN`
(data_lake.go, not under src/; the check discards the other result) for a given ID, and the
message builder `create.ProblemStandardMessage` behind `create.Error`, applied to the
action, the resource name, the identifier and the error. -/
structure TestEnv where
  FindDataLakeByARN : String → Option Err
  ProblemStandardMessage : String → String → String → Err → String

/-- The error built by `create.Error(..., rs.Primary.ID, errors.New("not destroyed"))`. -/
def notDestroyedError (env : TestEnv) (id : String) : Err :=
  Err.other (env.ProblemStandardMessage ErrActionCheckingDestroyed ResNameDataLake id
    (Err.other "not destroyed"))

/-- The check function returned by `testAccCheckDataLakeDestroy`, on the resources of the
root module in the order in which the `range` over the map visits them. -/
def testAccCheckDataLakeDestroy (env : TestEnv) : List ResourceState → Option Err
  | [] => none
  | rs :: rest =>
    if rs.TypeName ≠ "aws_securitylake_data_lake" then testAccCheckDataLakeDestroy env rest
    else
      let err := env.FindDataLakeByARN rs.PrimaryID
      if NotFound err then testAccCheckDataLakeDestroy env rest
      else
        match err with
        | some e => some e
        | none => some (notDestroyedError env rs.PrimaryID)

/-! ## Concrete inputs and auxiliary predicates -/

/-- The printable ASCII characters (32 to 126), on which `unicode.IsPrint` holds. -/
def printableASCII (c : Char) : Bool :=
  decide (32 ≤ c.toNat ∧ c.toNat < 127)

/-- A remote service, over a trivial remote state, whose operations all succeed and whose
subscriber lookup returns the given result. -/
def lookupConn (r : Option SubscriberResource × Option Err) : Conn Unit where
  CreateSubscriberNotification := fun st _ => (none, st)
  UpdateSubscriberNotification := fun st _ => (none, st)
  DeleteSubscriberNotification := fun st _ => (none, st)
  findSubscriberByID := fun st _ => (r, st)
  ProblemStandardMessage := fun action name id _ => action ++ " " ++ name ++ " (" ++ id ++ ")"
  IsPrint := printableASCII

/-- A prior state as left by an import of the ID `sub-1,notification`. -/
def importedState : subscriberNotificationResourceModel :=
  ⟨TFList.null, TFString.null, TFString.null, TFString.value "sub-1,notification"⟩

/-- A remote service, over a trivial remote state, whose lookup finds nothing and whose
delete fails with the given error. -/
def deleteConn (r : Option Err) : Conn Unit where
  CreateSubscriberNotification := fun st _ => (none, st)
  UpdateSubscriberNotification := fun st _ => (none, st)
  DeleteSubscriberNotification := fun st _ => (r, st)
  findSubscriberByID := fun st _ => ((none, none), st)
  ProblemStandardMessage := fun action name id _ => action ++ " " ++ name ++ " (" ++ id ++ ")"
  IsPrint := printableASCII

/-- A state holding the subscriber `sub-1`. -/
def storedState : subscriberNotificationResourceModel :=
  ⟨TFList.null, TFString.value "endpoint-1", TFString.value "sub-1",
    TFString.value "sub-1,notification"⟩

/-- An error diagnostic as returned by a failed decoding of the state. -/
def decodeError : Diagnostic :=
  ⟨Severity.error, "Value Conversion Error", "cannot decode the state"⟩

/-- A warning diagnostic as a decoding of the state may return. -/
def decodeWarning : Diagnostic :=
  ⟨Severity.warning, "Deprecated Attribute", "the attribute is deprecated"⟩

/-- Whether a configuration list expands without error: `ElementsAs` reports no error, the
expander returns (no panic) and its diagnostics hold no error. -/
def expandsWithoutError (c : TFList subscriberNotificationResourceConfigurationModel) : Bool :=
  !HasError c.ElementsAs.1 &&
    match expandSubscriberNotificationResourceConfiguration c.ElementsAs.2 with
    | none => false
    | some r => !HasError r.2

/-- A configuration list with one HTTPS block for the given endpoint. -/
def httpsConfiguration (endpoint : String) :
    TFList subscriberNotificationResourceConfigurationModel :=
  TFList.known [⟨TFList.null,
    TFList.known [⟨TFString.value endpoint, TFString.null, TFString.null, TFString.null,
      TFString.null⟩]⟩]

/-- The plan of an update: the desired endpoint is `https://new.example.com`. -/
def plannedModel : subscriberNotificationResourceModel :=
  ⟨httpsConfiguration "https://new.example.com", TFString.value "endpoint-1",
    TFString.value "sub-1", TFString.value "sub-1,notification"⟩

/-- The prior state of an update: the endpoint is `https://old.example.com`. -/
def priorModel : subscriberNotificationResourceModel :=
  ⟨httpsConfiguration "https://old.example.com", TFString.value "endpoint-1",
    TFString.value "sub-1", TFString.value "sub-1,notification"⟩

/-- The remote HTTPS member for the given endpoint, all other fields unset. -/
def httpsMember (endpoint : String) : NotificationConfiguration :=
  NotificationConfiguration.MemberHttpsNotificationConfiguration
    (some ⟨some endpoint, none, none, none, ""⟩)

/-- A remote service, over a trivial remote state, whose create returns the given error
and whose subscriber lookup returns the given result. -/
def createConn (c : Option Err) (r : Option SubscriberResource × Option Err) : Conn Unit where
  CreateSubscriberNotification := fun st _ => (c, st)
  UpdateSubscriberNotification := fun st _ => (none, st)
  DeleteSubscriberNotification := fun st _ => (none, st)
  findSubscriberByID := fun st _ => (r, st)
  ProblemStandardMessage := fun action name id _ => action ++ " " ++ name ++ " (" ++ id ++ ")"
  IsPrint := printableASCII

/-- Whether a nested block is present: the list is not null and has an element, the test
made by `expandSubscriberNotificationResourceConfiguration` on each of the two blocks. -/
def hasBlock {α : Type} (l : TFList α) : Bool :=
  !l.IsNull && decide (l.Elements.length > 0)

/-- A configuration element with neither nested block, as the schema admits. -/
def emptyConfigurationElement : subscriberNotificationResourceConfigurationModel :=
  ⟨TFList.null, TFList.null⟩

/-- A plan whose single configuration element has neither nested block. -/
def bareModel : subscriberNotificationResourceModel :=
  ⟨TFList.known [emptyConfigurationElement], TFString.unknown, TFString.value "sub-1",
    TFString.unknown⟩

/-- A test environment in which the lookup of `arn:denied` fails with an access error,
the lookup of `arn:gone` reports not found, and every other lookup succeeds. -/
def mixedEnv : TestEnv where
  FindDataLakeByARN := fun id =>
    if id = "arn:denied" then some (Err.other "AccessDeniedException")
    else if id = "arn:gone" then some (Err.notFoundError "couldn't find resource")
    else none
  ProblemStandardMessage := fun action name id e =>
    action ++ " " ++ name ++ " (" ++ id ++ "): " ++ e.Error

/-- A root module with two data lakes, visited in this order: one whose lookup fails with
an access error, then one that still exists. -/
def mixedResources : List ResourceState :=
  [⟨"aws_securitylake_data_lake", "arn:denied"⟩, ⟨"aws_securitylake_data_lake", "arn:alive"⟩]

/-! ## Lemmas on splitting and diagnostics -/

theorem splitSep_ne_nil (sep : Char) (l : List Char) : splitSep sep l ≠ [] := by
  induction l with
  | nil => simp [splitSep]
  | cons c cs ih =>
    unfold splitSep
    split
    · simp
    · split <;> simp

theorem splitSep_of_not_mem (sep : Char) (l : List Char) (h : sep ∉ l) :
    splitSep sep l = [l] := by
  induction l with
  | nil => simp [splitSep]
  | cons c cs ih =>
    have hc : ¬ c = sep := fun e => h (by simp [e])
    have hcs : sep ∉ cs := fun m => h (List.mem_cons_of_mem _ m)
    simp [splitSep, hc, ih hcs]

theorem splitSep_append_sep (sep : Char) (a b : List Char) (h : sep ∉ a) :
    splitSep sep (a ++ sep :: b) = a :: splitSep sep b := by
  induction a with
  | nil => simp [splitSep]
  | cons c cs ih =>
    have hc : ¬ c = sep := fun e => h (by simp [e])
    have hcs : sep ∉ cs := fun m => h (List.mem_cons_of_mem _ m)
    simp [splitSep, hc, ih hcs]

theorem stringsSplit_compound (s t : String) (hs : ResourceIdSeparator ∉ s.data)
    (ht : ResourceIdSeparator ∉ t.data) :
    stringsSplit (s ++ String.singleton ResourceIdSeparator ++ t) = [s, t] := by
  have h : (s ++ String.singleton ResourceIdSeparator ++ t).data
      = s.data ++ ResourceIdSeparator :: t.data := by
    simp [String.data_append, String.singleton]
  simp [stringsSplit, h, splitSep_append_sep _ _ _ hs, splitSep_of_not_mem _ _ ht]

theorem ExpandResourceId_compound (s t : String) (hs : ResourceIdSeparator ∉ s.data)
    (ht : ResourceIdSeparator ∉ t.data) (hs0 : s ≠ "") (ht0 : t ≠ "") :
    ExpandResourceId (s ++ String.singleton ResourceIdSeparator ++ t) 2 false
      = Except.ok [s, t] := by
  simp [ExpandResourceId, stringsSplit_compound s t hs ht, hs0, ht0]

theorem notification_no_sep : ResourceIdSeparator ∉ "notification".data := by decide

theorem mem_Append (ds new : List Diagnostic) (d : Diagnostic) :
    d ∈ Append ds new ↔ d ∈ ds ∨ d ∈ new := by
  induction new generalizing ds with
  | nil => simp [Append]
  | cons x xs ih =>
    have hstep : Append ds (x :: xs)
        = Append (if ds.contains x then ds else ds ++ [x]) xs := by
      simp [Append]
    rw [hstep, ih]
    by_cases hx : ds.contains x = true
    · have hxm : x ∈ ds := by simpa using hx
      simp only [hx, if_true, List.mem_cons]
      constructor
      · rintro (h | h)
        · exact Or.inl h
        · exact Or.inr (Or.inr h)
      · rintro (h | h | h)
        · exact Or.inl h
        · exact Or.inl (h ▸ hxm)
        · exact Or.inr h
    · simp only [hx, List.mem_append, List.mem_singleton, List.mem_cons]
      simp only [Bool.false_eq_true, if_false, List.mem_append, List.mem_singleton]
      tauto

theorem HasError_iff (ds : List Diagnostic) :
    HasError ds = true ↔ ∃ d ∈ ds, d.severity = Severity.error := by
  simp [HasError]

theorem HasError_Append (ds new : List Diagnostic) :
    HasError (Append ds new) = (HasError ds || HasError new) := by
  rw [Bool.eq_iff_iff]
  simp only [Bool.or_eq_true, HasError_iff, mem_Append]
  constructor
  · rintro ⟨d, hd | hd, he⟩
    · exact Or.inl ⟨d, hd, he⟩
    · exact Or.inr ⟨d, hd, he⟩
  · rintro (⟨d, hd, he⟩ | ⟨d, hd, he⟩)
    · exact ⟨d, Or.inl hd, he⟩
    · exact ⟨d, Or.inr hd, he⟩

theorem HasError_Append_nil (ds : List Diagnostic) :
    HasError (Append [] ds) = HasError ds := by
  rw [HasError_Append]; simp [HasError]

theorem AddError_eq_append (ds : List Diagnostic) (summary detail : String)
    (h : HasError ds = false) :
    AddError ds summary detail = ds ++ [⟨Severity.error, summary, detail⟩] := by
  have hn : ¬ (⟨Severity.error, summary, detail⟩ : Diagnostic) ∈ ds := by
    intro hm
    have : HasError ds = true := (HasError_iff ds).2 ⟨_, hm, rfl⟩
    rw [h] at this
    exact Bool.false_ne_true this
  simp [AddError, Append, hn]

theorem ExpandResourceId_two_cases (id : String) :
    (∃ a b, stringsSplit id = [a, b] ∧ a ≠ "" ∧ b ≠ ""
        ∧ ExpandResourceId id 2 false = Except.ok [a, b])
    ∨ ((¬ ∃ a b, stringsSplit id = [a, b] ∧ a ≠ "" ∧ b ≠ "")
        ∧ ∃ e, ExpandResourceId id 2 false = Except.error e) := by
  unfold ExpandResourceId
  generalize stringsSplit id = parts
  match parts with
  | [] => right; simp
  | [a] => right; simp
  | [a, b] =>
    by_cases ha : a = ""
    · right; simp [ha]
    · by_cases hb : b = ""
      · right; simp [hb]
      · left; exact ⟨a, b, rfl, ha, hb, by simp [ha, hb]⟩
  | a :: b :: c :: rest => right; simp

/-- C10: `InitFromID` returns an error exactly when splitting the ID on the comma does not
give exactly two parts that are both non-empty; on an error the model (in particular
`SubscriberID`) is unchanged, and on success `SubscriberID` is the first part. -/
theorem InitFromID_fails_iff_malformed (data : subscriberNotificationResourceModel) :
    ((InitFromID data).2.isSome = true ↔
        ¬ ∃ a b, stringsSplit data.ID.ValueString = [a, b] ∧ a ≠ "" ∧ b ≠ "")
    ∧ ((InitFromID data).2.isSome = true → (InitFromID data).1 = data)
    ∧ ((InitFromID data).2 = none →
        ∃ a b, stringsSplit data.ID.ValueString = [a, b]
          ∧ (InitFromID data).1.SubscriberID = TFString.value a) := by
  rcases ExpandResourceId_two_cases data.ID.ValueString with
    ⟨a, b, hsplit, ha, hb, hok⟩ | ⟨hno, e, herr⟩
  · have hI : InitFromID data = ({ data with SubscriberID := TFString.value a }, none) := by
      simp [InitFromID, subscriberNotificationIdPartCount, hok]
    refine ⟨?_, ?_, ?_⟩
    · simp only [hI, Option.isSome_none, Bool.false_eq_true, false_iff, not_not]
      exact ⟨a, b, hsplit, ha, hb⟩
    · simp [hI]
    · intro _
      exact ⟨a, b, hsplit, by simp [hI]⟩
  · have hI : InitFromID data = (data, some e) := by
      simp [InitFromID, subscriberNotificationIdPartCount, herr]
    refine ⟨?_, ?_, ?_⟩
    · simp only [hI, Option.isSome_some, true_iff]
      exact hno
    · simp [hI]
    · simp [hI]

/-- C1: for a subscriber ID `s` that is non-empty and has no comma, `setID` on a model
whose `SubscriberID` is `s` succeeds, and `InitFromID` on the resulting model returns no
error and leaves `SubscriberID` equal to `s`. -/
theorem setID_InitFromID_roundtrip (data : subscriberNotificationResourceModel) (s : String)
    (hs : data.SubscriberID = TFString.value s) (hne : s ≠ "") (hc : ',' ∉ s.data) :
    ∃ data1, setID data = some data1
      ∧ (InitFromID data1).2 = none
      ∧ (InitFromID data1).1.SubscriberID = TFString.value s := by
  have hset : setID data = some { data with
      ID := TFString.value (s ++ String.singleton ResourceIdSeparator ++ "notification") } := by
    simp [setID, FlattenResourceId, subscriberNotificationIdPartCount, hs,
      TFString.ValueString, hne, stringsJoin]
  refine ⟨_, hset, ?_⟩
  have hx := ExpandResourceId_compound s "notification" hc notification_no_sep hne (by decide)
  simp [InitFromID, subscriberNotificationIdPartCount, TFString.ValueString, hx]

/-- Witness for C1 at the subscriber ID `sub-1`. -/
theorem setID_InitFromID_roundtrip_witness :
    ∃ data1, setID ⟨TFList.null, TFString.null, TFString.value "sub-1", TFString.null⟩
        = some data1
      ∧ (InitFromID data1).2 = none
      ∧ (InitFromID data1).1.SubscriberID = TFString.value "sub-1" :=
  setID_InitFromID_roundtrip ⟨TFList.null, TFString.null, TFString.value "sub-1", TFString.null⟩
    "sub-1" rfl (by decide) (by decide)

/-! ## Lemmas on the expander -/

theorem ElementsAs_diags_nil_of_nonempty {α : Type} (l : TFList α)
    (h : (!l.IsNull && decide (l.Elements.length > 0)) = true) : l.ElementsAs.1 = [] := by
  cases l with
  | null => simp [TFList.IsNull] at h
  | unknown => simp [TFList.IsNull, TFList.Elements] at h
  | known elems => rfl

theorem ElementsAs_diags_nil_of_no_error {α : Type} (l : TFList α)
    (h : HasError l.ElementsAs.1 = false) : l.ElementsAs.1 = [] := by
  cases l with
  | null => rfl
  | unknown => simp [TFList.ElementsAs, HasError] at h
  | known elems => rfl

theorem Append_nil_right (ds : List Diagnostic) : Append ds [] = ds := rfl

theorem expandItem_diags (acc : List NotificationConfiguration × List Diagnostic)
    (item : subscriberNotificationResourceConfigurationModel) :
    (expandItem acc item).2 = acc.2 := by
  unfold expandItem
  by_cases h1 : (!item.SqsNotificationConfiguration.IsNull
      && decide (item.SqsNotificationConfiguration.Elements.length > 0)) = true
  · by_cases h2 : (!item.HTTPSNotificationConfiguration.IsNull
        && decide (item.HTTPSNotificationConfiguration.Elements.length > 0)) = true
    · simp only [h1, h2, if_true, ElementsAs_diags_nil_of_nonempty _ h1,
        ElementsAs_diags_nil_of_nonempty _ h2, Append_nil_right]
    · simp only [h1, h2, if_true, if_false, Bool.false_eq_true,
        ElementsAs_diags_nil_of_nonempty _ h1, Append_nil_right]
  · by_cases h2 : (!item.HTTPSNotificationConfiguration.IsNull
        && decide (item.HTTPSNotificationConfiguration.Elements.length > 0)) = true
    · simp only [h1, h2, if_true, if_false, Bool.false_eq_true,
        ElementsAs_diags_nil_of_nonempty _ h2, Append_nil_right]
    · simp only [h1, h2, if_false, Bool.false_eq_true]

theorem foldl_expandItem_diags (models : List subscriberNotificationResourceConfigurationModel)
    (acc : List NotificationConfiguration × List Diagnostic) :
    (models.foldl expandItem acc).2 = acc.2 := by
  induction models generalizing acc with
  | nil => rfl
  | cons m ms ih => rw [List.foldl_cons, ih, expandItem_diags]

theorem expand_diags_nil (models : List subscriberNotificationResourceConfigurationModel)
    (cfg : NotificationConfiguration) (d : List Diagnostic)
    (h : expandSubscriberNotificationResourceConfiguration models = some (cfg, d)) :
    d = [] := by
  unfold expandSubscriberNotificationResourceConfiguration at h
  have hd := foldl_expandItem_diags models ([], [])
  cases hr : (models.foldl expandItem ([], [])).1 with
  | nil => simp [hr] at h
  | cons first rest =>
    simp [hr] at h
    rw [← h.2, hd]

theorem compound_id_eq (s : String) :
    s ++ String.singleton ',' ++ "notification" = s ++ ",notification" := by
  apply String.ext
  simp [String.data_append, String.singleton]

/-! ## Read -/

/-- C2: when the prior state decodes and its ID parses, `Read` removes the resource from
state and reports no error diagnostic whenever the lookup returns an error that is a
not-found condition; a subscriber without endpoint is such a case, the lookup then
returning `EmptyResultError`. -/
theorem Read_removes_on_not_found {σ : Type} (conn : Conn σ) (st : σ)
    (stateGet : List Diagnostic × subscriberNotificationResourceModel)
    (hget : HasError stateGet.1 = false) (hid : (InitFromID stateGet.2).2 = none) :
    (∀ e, (findSubscriberNotificationByEndPointID conn st
            (InitFromID stateGet.2).1.SubscriberID.ValueString).1.2.2 = some e →
        NotFound (some e) = true →
        (Read conn st stateGet).State = StateAction.removed
          ∧ HasError (Read conn st stateGet).Diagnostics = false)
    ∧ (∀ sub, (conn.findSubscriberByID st
            (InitFromID stateGet.2).1.SubscriberID.ValueString).1 = (some sub, none) →
        sub.SubscriberEndpoint = none →
        (findSubscriberNotificationByEndPointID conn st
            (InitFromID stateGet.2).1.SubscriberID.ValueString).1
          = (none, none, some Err.emptyResultError)
        ∧ NotFound (some Err.emptyResultError) = true
        ∧ (Read conn st stateGet).State = StateAction.removed
        ∧ HasError (Read conn st stateGet).Diagnostics = false) := by
  have hg : HasError (Append [] stateGet.1) = false := by
    rw [HasError_Append_nil]; exact hget
  have key : ∀ e, (findSubscriberNotificationByEndPointID conn st
            (InitFromID stateGet.2).1.SubscriberID.ValueString).1.2.2 = some e →
        NotFound (some e) = true →
        (Read conn st stateGet).State = StateAction.removed
          ∧ HasError (Read conn st stateGet).Diagnostics = false := by
    intro e he hnf
    simp [Read, hg, hid, he, hnf]
  refine ⟨key, ?_⟩
  intro sub hsub hend
  have hf : (findSubscriberNotificationByEndPointID conn st
            (InitFromID stateGet.2).1.SubscriberID.ValueString).1
          = (none, none, some Err.emptyResultError) := by
    simp [findSubscriberNotificationByEndPointID, hsub, hend]
  have hk := key Err.emptyResultError (by rw [hf]) rfl
  exact ⟨hf, rfl, hk.1, hk.2⟩

/-- Witness for C2: a subscriber that exists but has no endpoint. -/
theorem Read_removes_on_not_found_witness :
    (Read (lookupConn (some ⟨some "sub-1", none⟩, none)) () ([], importedState)).State
        = StateAction.removed
      ∧ HasError (Read (lookupConn (some ⟨some "sub-1", none⟩, none)) ()
          ([], importedState)).Diagnostics = false :=
  ((Read_removes_on_not_found (lookupConn (some ⟨some "sub-1", none⟩, none)) ()
      ([], importedState) rfl (by decide)).2 ⟨some "sub-1", none⟩ rfl rfl).2.2

/-- C3, the code at the failing input: the lookup fails with an error that is not a
not-found condition, and `Read` removes the resource from state without any diagnostic. -/
theorem Read_drops_lookup_error :
    NotFound (some (Err.other "AccessDeniedException")) = false
      ∧ (findSubscriberNotificationByEndPointID
          (lookupConn (none, some (Err.other "AccessDeniedException"))) () "sub-1").1
          = (none, none, some (Err.other "AccessDeniedException"))
      ∧ (Read (lookupConn (none, some (Err.other "AccessDeniedException"))) ()
          ([], importedState)).State = StateAction.removed
      ∧ (Read (lookupConn (none, some (Err.other "AccessDeniedException"))) ()
          ([], importedState)).Diagnostics = []
      ∧ (Read (lookupConn (none, some (Err.other "AccessDeniedException"))) ()
          ([], importedState)).calls = [Call.findSubscriberByID "sub-1"] := by
  refine ⟨rfl, rfl, ?_, ?_, ?_⟩ <;> decide

/-! ## Delete -/

/-- C4, counterexample: when decoding the state reports an error, `Delete` returns before
the remote delete, which is then invoked zero times, not once. -/
theorem Delete_no_call_on_decode_error :
    (Delete (deleteConn none) () ([decodeError], storedState)).calls = []
      ∧ (Delete (deleteConn none) () ([decodeError], storedState)).calls
          ≠ [Call.DeleteSubscriberNotification ⟨StringFromFramework storedState.SubscriberID⟩] := by
  decide

/-- C4, amended: when decoding the state reports an error, `Delete` returns before any
remote call, adding no diagnostic and leaving the remote state as it was; in every run in
which the state decodes without an error diagnostic, the remote delete is invoked exactly
once, with the `subscriber_id` held in state; when it fails with a
`ResourceNotFoundException` no diagnostic is added; when it fails with any other error
exactly one error diagnostic is added, whose detail is the message of the error. -/
theorem Delete_once_idempotent_verbatim {σ : Type} (conn : Conn σ) (st : σ)
    (stateGet : List Diagnostic × subscriberNotificationResourceModel) :
    (HasError stateGet.1 = true →
        (Delete conn st stateGet).calls = []
          ∧ (Delete conn st stateGet).remote = st
          ∧ (Delete conn st stateGet).Diagnostics = Append [] stateGet.1
          ∧ (Delete conn st stateGet).State = StateAction.untouched)
    ∧ (HasError stateGet.1 = false →
        (Delete conn st stateGet).calls
            = [Call.DeleteSubscriberNotification ⟨StringFromFramework stateGet.2.SubscriberID⟩]
        ∧ (∀ e, (conn.DeleteSubscriberNotification st
                ⟨StringFromFramework stateGet.2.SubscriberID⟩).1 = some e →
            e.asResourceNotFoundException = true →
            (Delete conn st stateGet).Diagnostics = Append [] stateGet.1
              ∧ HasError (Delete conn st stateGet).Diagnostics = false)
        ∧ (∀ e, (conn.DeleteSubscriberNotification st
                ⟨StringFromFramework stateGet.2.SubscriberID⟩).1 = some e →
            e.asResourceNotFoundException = false →
            (Delete conn st stateGet).Diagnostics = Append [] stateGet.1 ++
              [⟨Severity.error,
                conn.ProblemStandardMessage ErrActionDeleting ResNameSubscriberNotification
                  (stateGet.2.ID.String conn.IsPrint) e,
                e.Error⟩])) := by
  refine ⟨?_, ?_⟩
  · intro hget
    have hg : HasError (Append [] stateGet.1) = true := by
      rw [HasError_Append_nil]; exact hget
    simp [Delete, hg]
  · intro hget
    have hg : HasError (Append [] stateGet.1) = false := by
      rw [HasError_Append_nil]; exact hget
    refine ⟨?_, ?_, ?_⟩
    · simp only [Delete, hg, Bool.false_eq_true, if_false]
      split
      · split <;> rfl
      · rfl
    · intro e he hnf
      simp [Delete, hg, he, hnf]
    · intro e he hnf
      simp [Delete, hg, he, hnf, AddError_eq_append _ _ _ hg]

/-- Witness for C4 amended: a decoding that reports a warning and then an error, against a
remote delete that would fail with a throttling error; no remote call is made. -/
theorem Delete_once_idempotent_verbatim_witness :
    (Delete (deleteConn (some (Err.other "ThrottlingException"))) ()
        ([decodeWarning, decodeError], storedState)).calls = []
      ∧ (Delete (deleteConn (some (Err.other "ThrottlingException"))) () ([], storedState)).calls
        = [Call.DeleteSubscriberNotification ⟨StringFromFramework storedState.SubscriberID⟩] :=
  ⟨((Delete_once_idempotent_verbatim (deleteConn (some (Err.other "ThrottlingException"))) ()
      ([decodeWarning, decodeError], storedState)).1 (by decide)).1,
    ((Delete_once_idempotent_verbatim (deleteConn (some (Err.other "ThrottlingException"))) ()
      ([], storedState)).2 rfl).1⟩

/-! ## Update -/

theorem expandsWithoutError_spec (c : TFList subscriberNotificationResourceConfigurationModel)
    (h : expandsWithoutError c = true) :
    HasError c.ElementsAs.1 = false
      ∧ ∃ cfg d, expandSubscriberNotificationResourceConfiguration c.ElementsAs.2
          = some (cfg, d) ∧ HasError d = false := by
  unfold expandsWithoutError at h
  cases hx : expandSubscriberNotificationResourceConfiguration c.ElementsAs.2 with
  | none => simp [hx] at h
  | some r =>
    simp [hx] at h
    exact ⟨h.1, r.1, r.2, rfl, h.2⟩

/-- C5: for every plan and prior state that decode without error and whose configuration
expands without error, `Update` returns, and it invokes `UpdateSubscriberNotification`
exactly once if the configuration of the plan differs from the configuration of the
state, and makes no remote call if they are equal. -/
theorem Update_calls_iff_configuration_differs {σ : Type} (conn : Conn σ) (st : σ)
    (planGet stateGet : List Diagnostic × subscriberNotificationResourceModel)
    (hplan : HasError planGet.1 = false) (hstate : HasError stateGet.1 = false)
    (_hpe : expandsWithoutError planGet.2.Configuration = true)
    (hse : expandsWithoutError stateGet.2.Configuration = true) :
    ∃ r, Update conn st planGet stateGet = some r
      ∧ (planGet.2.Configuration ≠ stateGet.2.Configuration →
          ∃ input, r.calls = [Call.UpdateSubscriberNotification input])
      ∧ (planGet.2.Configuration = stateGet.2.Configuration → r.calls = []) := by
  have h1 : HasError (Append [] planGet.1) = false := by
    rw [HasError_Append_nil]; exact hplan
  have h2 : HasError (Append (Append [] planGet.1) stateGet.1) = false := by
    rw [HasError_Append, h1, hstate]; rfl
  obtain ⟨he, cfg, d, hx, hd⟩ := expandsWithoutError_spec _ hse
  have h3 : HasError (Append (Append (Append [] planGet.1) stateGet.1)
      stateGet.2.Configuration.ElementsAs.1) = false := by
    rw [HasError_Append, h2, he]; rfl
  have h4 : HasError (Append (Append (Append (Append [] planGet.1) stateGet.1)
      stateGet.2.Configuration.ElementsAs.1) d) = false := by
    rw [HasError_Append, h3, hd]; rfl
  by_cases hc : planGet.2.Configuration = stateGet.2.Configuration
  · have hU : Update conn st planGet stateGet
        = some ⟨Append (Append [] planGet.1) stateGet.1, StateAction.set stateGet.2, [], st⟩ := by
      simp only [Update, h1, h2, hc, decide_True, Bool.not_true, Bool.false_eq_true, if_false]
    exact ⟨_, hU, fun hne => absurd hc hne, fun _ => rfl⟩
  · cases hu : (conn.UpdateSubscriberNotification st
        ⟨stateGet.2.SubscriberID.ValueStringPointer, cfg⟩).1 with
    | none =>
      have hU : Update conn st planGet stateGet
          = some ⟨Append (Append (Append (Append [] planGet.1) stateGet.1)
                stateGet.2.Configuration.ElementsAs.1) d,
              StateAction.set stateGet.2,
              [Call.UpdateSubscriberNotification
                ⟨stateGet.2.SubscriberID.ValueStringPointer, cfg⟩],
              (conn.UpdateSubscriberNotification st
                ⟨stateGet.2.SubscriberID.ValueStringPointer, cfg⟩).2⟩ := by
        simp only [Update, h1, h2, h3, h4, hc, hx, hu, decide_False, Bool.not_false,
          Bool.false_eq_true, if_false, if_true]
      exact ⟨_, hU, fun _ => ⟨_, rfl⟩, fun heq => absurd heq hc⟩
    | some err =>
      have hU : Update conn st planGet stateGet
          = some ⟨AddError (Append (Append (Append (Append [] planGet.1) stateGet.1)
                stateGet.2.Configuration.ElementsAs.1) d)
                (conn.ProblemStandardMessage ErrActionUpdating ResNameSubscriberNotification
                  (stateGet.2.ID.String conn.IsPrint) err) err.Error,
              StateAction.untouched,
              [Call.UpdateSubscriberNotification
                ⟨stateGet.2.SubscriberID.ValueStringPointer, cfg⟩],
              (conn.UpdateSubscriberNotification st
                ⟨stateGet.2.SubscriberID.ValueStringPointer, cfg⟩).2⟩ := by
        simp only [Update, h1, h2, h3, h4, hc, hx, hu, decide_False, Bool.not_false,
          Bool.false_eq_true, if_false, if_true]
      exact ⟨_, hU, fun _ => ⟨_, rfl⟩, fun heq => absurd heq hc⟩

/-- Witness for C5: the plan `plannedModel` against the prior state `priorModel`. -/
theorem Update_calls_iff_configuration_differs_witness :
    ∃ r, Update (lookupConn (none, none)) () ([], plannedModel) ([], priorModel) = some r
      ∧ (plannedModel.Configuration ≠ priorModel.Configuration →
          ∃ input, r.calls = [Call.UpdateSubscriberNotification input])
      ∧ (plannedModel.Configuration = priorModel.Configuration → r.calls = []) :=
  Update_calls_iff_configuration_differs (lookupConn (none, none)) () ([], plannedModel)
    ([], priorModel) rfl rfl (by decide) (by decide)

/-- Outside the inputs that the framework delivers: with a plan asking for the endpoint
`https://new.example.com` and a prior state holding `https://old.example.com`, the
function `Update` sends the expansion of the prior state, completes without diagnostic
and writes the prior state, because `old` is read from the plan and `new` from the state. -/
theorem Update_on_differing_configurations :
    (Update (lookupConn (none, none)) () ([], plannedModel) ([], priorModel)).map
        (fun r => (r.calls, r.Diagnostics, r.State))
      = some ([Call.UpdateSubscriberNotification
          ⟨some "sub-1", httpsMember "https://old.example.com"⟩], [],
          StateAction.set priorModel)
    ∧ (expandSubscriberNotificationResourceConfiguration
        plannedModel.Configuration.ElementsAs.2).map (fun r => r.1)
      = some (httpsMember "https://new.example.com")
    ∧ priorModel.Configuration ≠ plannedModel.Configuration := by
  refine ⟨?_, ?_, ?_⟩ <;> decide

theorem Update_of_equal_configurations {σ : Type} (conn : Conn σ) (st : σ)
    (planGet stateGet : List Diagnostic × subscriberNotificationResourceModel)
    (hreach : planGet.2.Configuration = stateGet.2.Configuration) :
    (HasError (Append (Append [] planGet.1) stateGet.1) = true →
        ∃ ds, HasError ds = true
          ∧ Update conn st planGet stateGet = some ⟨ds, StateAction.untouched, [], st⟩)
    ∧ (HasError (Append (Append [] planGet.1) stateGet.1) = false →
        Update conn st planGet stateGet
          = some ⟨Append (Append [] planGet.1) stateGet.1, StateAction.set stateGet.2, [],
              st⟩) := by
  refine ⟨?_, ?_⟩
  · intro h2
    by_cases h1 : HasError (Append [] planGet.1) = true
    · exact ⟨_, h1, by simp only [Update, h1, if_true]⟩
    · exact ⟨_, h2, by simp only [Update, h1, h2, if_true, if_false, Bool.false_eq_true]⟩
  · intro h2
    have h1 : HasError (Append [] planGet.1) = false := by
      rw [HasError_Append] at h2
      cases h : HasError (Append [] planGet.1) with
      | false => rfl
      | true => rw [h] at h2; simp at h2
    simp only [Update, h1, h2, hreach, decide_True, Bool.not_true, Bool.false_eq_true,
      if_false]

/-- C6: every field under `configuration` sits in a nested block that carries
`RequiresReplace`, so the framework hands to `Update` only plans whose configuration
equals that of the prior state. On every such input `Update` returns and makes no remote
call at all; hence every `UpdateSubscriberNotification` request it sends carries the
expansion of the configuration of the plan. -/
theorem Update_request_carries_planned_configuration {σ : Type} (conn : Conn σ) (st : σ)
    (planGet stateGet : List Diagnostic × subscriberNotificationResourceModel)
    (hreach : planGet.2.Configuration = stateGet.2.Configuration) :
    ∃ r, Update conn st planGet stateGet = some r
      ∧ r.calls = []
      ∧ r.remote = st
      ∧ ∀ input, Call.UpdateSubscriberNotification input ∈ r.calls →
          (expandSubscriberNotificationResourceConfiguration
            planGet.2.Configuration.ElementsAs.2).map (fun x => x.1)
            = some input.Configuration := by
  obtain ⟨herr, hok⟩ := Update_of_equal_configurations conn st planGet stateGet hreach
  cases h2 : HasError (Append (Append [] planGet.1) stateGet.1) with
  | true =>
    obtain ⟨ds, _, hU⟩ := herr h2
    exact ⟨_, hU, rfl, rfl, fun input hin => by simp at hin⟩
  | false =>
    exact ⟨_, hok h2, rfl, rfl, fun input hin => by simp at hin⟩

/-- Witness for C6: the plan and the prior state both hold `plannedModel`. -/
theorem Update_request_carries_planned_configuration_witness :
    ∃ r, Update (lookupConn (none, none)) () ([], plannedModel) ([], plannedModel) = some r
      ∧ r.calls = []
      ∧ r.remote = ()
      ∧ ∀ input, Call.UpdateSubscriberNotification input ∈ r.calls →
          (expandSubscriberNotificationResourceConfiguration
            plannedModel.Configuration.ElementsAs.2).map (fun x => x.1)
            = some input.Configuration :=
  Update_request_carries_planned_configuration (lookupConn (none, none)) ()
    ([], plannedModel) ([], plannedModel) rfl

/-- C7: on every input that the framework hands to `Update` (the configuration of the plan
equals that of the prior state, any difference forcing a replacement), `Update` returns,
and when it completes without an error diagnostic the state it writes has its
configuration equal to the planned configuration. -/
theorem Update_writes_planned_configuration {σ : Type} (conn : Conn σ) (st : σ)
    (planGet stateGet : List Diagnostic × subscriberNotificationResourceModel)
    (hreach : planGet.2.Configuration = stateGet.2.Configuration) :
    ∃ r, Update conn st planGet stateGet = some r
      ∧ (HasError r.Diagnostics = false →
          ∃ data, r.State = StateAction.set data
            ∧ data.Configuration = planGet.2.Configuration) := by
  obtain ⟨herr, hok⟩ := Update_of_equal_configurations conn st planGet stateGet hreach
  cases h2 : HasError (Append (Append [] planGet.1) stateGet.1) with
  | true =>
    obtain ⟨ds, hds, hU⟩ := herr h2
    refine ⟨_, hU, fun hno => ?_⟩
    simp only [hds] at hno
    exact absurd hno (by decide)
  | false =>
    exact ⟨_, hok h2, fun _ => ⟨stateGet.2, rfl, hreach.symm⟩⟩

/-- Witness for C7: the plan and the prior state both hold `plannedModel`. -/
theorem Update_writes_planned_configuration_witness :
    ∃ r, Update (lookupConn (none, none)) () ([], plannedModel) ([], plannedModel) = some r
      ∧ (HasError r.Diagnostics = false →
          ∃ data, r.State = StateAction.set data
            ∧ data.Configuration = plannedModel.Configuration) :=
  Update_writes_planned_configuration (lookupConn (none, none)) ()
    ([], plannedModel) ([], plannedModel) rfl

/-! ## Create -/

/-- C9: when the plan decodes and expands and `CreateSubscriberNotification` returns an
error, `Create` adds one error diagnostic whose detail is the message of that error, makes
no further remote call (the create call is the only one and the remote state is the one
it left), and writes no state. -/
theorem Create_failure_verbatim {σ : Type} (conn : Conn σ) (st st1 : σ)
    (planGet : List Diagnostic × subscriberNotificationResourceModel)
    (cfg : NotificationConfiguration) (d : List Diagnostic) (e : Err)
    (hplan : HasError planGet.1 = false)
    (hel : HasError planGet.2.Configuration.ElementsAs.1 = false)
    (hx : expandSubscriberNotificationResourceConfiguration
      planGet.2.Configuration.ElementsAs.2 = some (cfg, d))
    (hcreate : conn.CreateSubscriberNotification st
      ⟨StringFromFramework planGet.2.SubscriberID, cfg⟩ = (some e, st1)) :
    ∃ r, Create conn st planGet = some r
      ∧ r.Diagnostics = Append [] planGet.1 ++
          [⟨Severity.error, "creating Security Lake Subscriber Notification", e.Error⟩]
      ∧ r.calls = [Call.CreateSubscriberNotification
          ⟨StringFromFramework planGet.2.SubscriberID, cfg⟩]
      ∧ r.State = StateAction.untouched
      ∧ r.remote = st1 := by
  have h1 : HasError (Append [] planGet.1) = false := by
    rw [HasError_Append_nil]; exact hplan
  have hel0 := ElementsAs_diags_nil_of_no_error _ hel
  have hd0 : d = [] := expand_diags_nil _ _ _ hx
  subst hd0
  have hU : Create conn st planGet
      = some ⟨AddError (Append [] planGet.1)
            "creating Security Lake Subscriber Notification" e.Error,
          StateAction.untouched,
          [Call.CreateSubscriberNotification ⟨StringFromFramework planGet.2.SubscriberID, cfg⟩],
          st1⟩ := by
    simp only [Create, h1, hel0, hx, hcreate, Append_nil_right, Bool.false_eq_true, if_false]
  exact ⟨_, hU, AddError_eq_append _ _ _ h1, rfl, rfl, rfl⟩

/-- Witness for C9: the plan `plannedModel` against a remote create that is denied. -/
theorem Create_failure_verbatim_witness :
    ∃ r, Create (createConn (some (Err.other "AccessDeniedException")) (none, none)) ()
        ([], plannedModel) = some r
      ∧ r.Diagnostics = Append [] [] ++
          [⟨Severity.error, "creating Security Lake Subscriber Notification",
            (Err.other "AccessDeniedException").Error⟩]
      ∧ r.calls = [Call.CreateSubscriberNotification
          ⟨StringFromFramework plannedModel.SubscriberID,
            httpsMember "https://new.example.com"⟩]
      ∧ r.State = StateAction.untouched
      ∧ r.remote = () :=
  Create_failure_verbatim (createConn (some (Err.other "AccessDeniedException")) (none, none))
    () () ([], plannedModel) (httpsMember "https://new.example.com") []
    (Err.other "AccessDeniedException") rfl rfl (by decide) rfl

/-- C8: when the plan decodes and expands, `CreateSubscriberNotification` succeeds and the
subsequent lookup returns a subscriber with ID `s` (non-empty, no comma) and endpoint `e`,
`Create` writes a state with `subscriber_id = s`, `endpoint_id = e`, `id` equal to `s`
followed by `,notification`, and the configuration of the plan unchanged. -/
theorem Create_success_maps_response {σ : Type} (conn : Conn σ) (st st1 st2 : σ)
    (planGet : List Diagnostic × subscriberNotificationResourceModel)
    (cfg : NotificationConfiguration) (d : List Diagnostic)
    (sub : SubscriberResource) (s e : String)
    (hplan : HasError planGet.1 = false)
    (hel : HasError planGet.2.Configuration.ElementsAs.1 = false)
    (hx : expandSubscriberNotificationResourceConfiguration
      planGet.2.Configuration.ElementsAs.2 = some (cfg, d))
    (hcreate : conn.CreateSubscriberNotification st
      ⟨StringFromFramework planGet.2.SubscriberID, cfg⟩ = (none, st1))
    (hfind : conn.findSubscriberByID st1 planGet.2.SubscriberID.ValueString
      = ((some sub, none), st2))
    (hsid : sub.SubscriberId = some s) (hend : sub.SubscriberEndpoint = some e)
    (hne : s ≠ "") (hc : ',' ∉ s.data) :
    ∃ r, Create conn st planGet = some r
      ∧ r.State = StateAction.set
          { Configuration := planGet.2.Configuration
            EndpointID := TFString.value e
            SubscriberID := TFString.value s
            ID := TFString.value (s ++ ",notification") }
      ∧ HasError r.Diagnostics = false := by
  have h1 : HasError (Append [] planGet.1) = false := by
    rw [HasError_Append_nil]; exact hplan
  have hel0 := ElementsAs_diags_nil_of_no_error _ hel
  have hd0 : d = [] := expand_diags_nil _ _ _ hx
  subst hd0
  have hf : findSubscriberNotificationByEndPointID conn st1 planGet.2.SubscriberID.ValueString
      = ((some (s ++ String.singleton ',' ++ "notification"), some e, none), st2) := by
    simp [findSubscriberNotificationByEndPointID, hfind, hsid, hend, awsToString]
  have hE := ExpandResourceId_compound s "notification" hc notification_no_sep hne (by decide)
  have hS : setID { planGet.2 with
        SubscriberID := StringToFramework (some s)
        EndpointID := StringToFramework (some e) }
      = some { Configuration := planGet.2.Configuration
               EndpointID := TFString.value e
               SubscriberID := TFString.value s
               ID := TFString.value (s ++ ",notification") } := by
    simp [setID, FlattenResourceId, subscriberNotificationIdPartCount, StringToFramework,
      TFString.ValueString, hne, stringsJoin, ResourceIdSeparator, compound_id_eq]
  have hU : Create conn st planGet
      = some ⟨Append [] planGet.1,
          StateAction.set
            { Configuration := planGet.2.Configuration
              EndpointID := TFString.value e
              SubscriberID := TFString.value s
              ID := TFString.value (s ++ ",notification") },
          [Call.CreateSubscriberNotification ⟨StringFromFramework planGet.2.SubscriberID, cfg⟩,
            Call.findSubscriberByID planGet.2.SubscriberID.ValueString],
          st2⟩ := by
    simp only [Create, h1, hel0, hx, hcreate, hf, Append_nil_right, Bool.false_eq_true,
      if_false, awsToString, subscriberNotificationIdPartCount]
    simp only [ResourceIdSeparator] at hE
    simp only [hE, List.getD_cons_zero, hS, List.singleton_append]
  exact ⟨_, hU, rfl, h1⟩

/-- Witness for C8: the plan `plannedModel`, a remote create that succeeds and a lookup
that returns the subscriber `sub-1` with the endpoint `endpoint-1`. -/
theorem Create_success_maps_response_witness :
    ∃ r, Create (createConn none (some ⟨some "sub-1", some "endpoint-1"⟩, none)) ()
        ([], plannedModel) = some r
      ∧ r.State = StateAction.set
          { Configuration := plannedModel.Configuration
            EndpointID := TFString.value "endpoint-1"
            SubscriberID := TFString.value "sub-1"
            ID := TFString.value ("sub-1" ++ ",notification") }
      ∧ HasError r.Diagnostics = false :=
  Create_success_maps_response
    (createConn none (some ⟨some "sub-1", some "endpoint-1"⟩, none)) () () ()
    ([], plannedModel) (httpsMember "https://new.example.com") []
    ⟨some "sub-1", some "endpoint-1"⟩ "sub-1" "endpoint-1"
    rfl rfl (by decide) rfl rfl rfl rfl (by decide) (by decide)

/-! ## Identifier encoding and lookup -/

/-- C11: for every model whose `SubscriberID` is a non-empty string `s`, `setID` returns
(no panic), sets `ID` to `s` followed by `,notification`, and leaves `Configuration`,
`EndpointID` and `SubscriberID` unchanged. -/
theorem setID_encodes_and_frames (data : subscriberNotificationResourceModel) (s : String)
    (hs : data.SubscriberID = TFString.value s) (hne : s ≠ "") :
    ∃ data1, setID data = some data1
      ∧ data1.ID = TFString.value (s ++ ",notification")
      ∧ data1.Configuration = data.Configuration
      ∧ data1.EndpointID = data.EndpointID
      ∧ data1.SubscriberID = data.SubscriberID := by
  have hset : setID data = some { data with ID := TFString.value (s ++ ",notification") } := by
    simp [setID, FlattenResourceId, subscriberNotificationIdPartCount, hs,
      TFString.ValueString, hne, stringsJoin, ResourceIdSeparator, compound_id_eq]
  exact ⟨_, hset, rfl, rfl, rfl, rfl⟩

/-- Witness for C11: the state `storedState`, whose subscriber ID is `sub-1`. -/
theorem setID_encodes_and_frames_witness :
    ∃ data1, setID storedState = some data1
      ∧ data1.ID = TFString.value ("sub-1" ++ ",notification")
      ∧ data1.Configuration = storedState.Configuration
      ∧ data1.EndpointID = storedState.EndpointID
      ∧ data1.SubscriberID = storedState.SubscriberID :=
  setID_encodes_and_frames storedState "sub-1" rfl (by decide)

/-- C12: `findSubscriberNotificationByEndPointID` is a three-way case split on the result of
`findSubscriberByID`: an error is returned as it is with nil results; a nil subscriber or a
nil endpoint gives `EmptyResultError` with nil results; otherwise there is no error, the
resource ID is the ID of the subscriber followed by `,notification`, and the endpoint is
the one of the subscriber. The remote state is the one the lookup left. -/
theorem findSubscriberNotificationByEndPointID_cases {σ : Type} (conn : Conn σ) (st : σ)
    (subscriberID : String) :
    (∀ output e st1, conn.findSubscriberByID st subscriberID = ((output, some e), st1) →
        findSubscriberNotificationByEndPointID conn st subscriberID
          = ((none, none, some e), st1))
    ∧ (∀ output st1, conn.findSubscriberByID st subscriberID = ((output, none), st1) →
        (output = none ∨ ∃ sub, output = some sub ∧ sub.SubscriberEndpoint = none) →
        findSubscriberNotificationByEndPointID conn st subscriberID
          = ((none, none, some Err.emptyResultError), st1))
    ∧ (∀ sub endpoint st1, conn.findSubscriberByID st subscriberID = ((some sub, none), st1) →
        sub.SubscriberEndpoint = some endpoint →
        findSubscriberNotificationByEndPointID conn st subscriberID
          = ((some (awsToString sub.SubscriberId ++ ",notification"), some endpoint, none),
              st1)) := by
  refine ⟨?_, ?_, ?_⟩
  · intro output e st1 h
    simp [findSubscriberNotificationByEndPointID, h]
  · intro output st1 h hcase
    rcases hcase with hnone | ⟨sub, hsome, hend⟩
    · simp [findSubscriberNotificationByEndPointID, h, hnone]
    · simp [findSubscriberNotificationByEndPointID, h, hsome, hend]
  · intro sub endpoint st1 h hend
    simp [findSubscriberNotificationByEndPointID, h, hend, compound_id_eq]

/-! ## Expanders -/

/-- C14: `expandHTTPSNotificationConfigurationModel` returns nil exactly for the empty list;
for a non-empty list the five fields of the result are those of element 0, a null
`http_method` giving the empty method string, and the elements after the first do not
affect the result. -/
theorem expandHTTPS_mirrors_first_element :
    (∀ l, expandHTTPSNotificationConfigurationModel l = none ↔ l = [])
    ∧ (∀ first rest, ∃ c, expandHTTPSNotificationConfigurationModel (first :: rest) = some c
        ∧ c.Endpoint = StringFromFramework first.Endpoint
        ∧ c.TargetRoleArn = StringFromFramework first.TargetRoleArn
        ∧ c.AuthorizationApiKeyName = StringFromFramework first.AuthorizationApiKeyName
        ∧ c.AuthorizationApiKeyValue = StringFromFramework first.AuthorizationApiKeyValue
        ∧ c.HttpMethod = awsToString (StringFromFramework first.HTTPMethod)
        ∧ (first.HTTPMethod = TFString.null → c.HttpMethod = "")
        ∧ (∀ m, first.HTTPMethod = TFString.value m → c.HttpMethod = m))
    ∧ (∀ first rest rest1, expandHTTPSNotificationConfigurationModel (first :: rest)
        = expandHTTPSNotificationConfigurationModel (first :: rest1)) := by
  refine ⟨?_, ?_, ?_⟩
  · intro l
    cases l with
    | nil => simp [expandHTTPSNotificationConfigurationModel]
    | cons first rest => simp [expandHTTPSNotificationConfigurationModel]
  · intro first rest
    refine ⟨_, rfl, rfl, rfl, rfl, rfl, rfl, ?_, ?_⟩
    · intro h
      simp [h, StringFromFramework, awsToString]
    · intro m h
      simp [h, StringFromFramework, awsToString]
  · intro first rest rest1
    rfl

theorem hasBlock_known {α : Type} (l : TFList α) (h : hasBlock l = true) :
    ∃ x xs, l = TFList.known (x :: xs) := by
  cases l with
  | null => simp [hasBlock, TFList.IsNull] at h
  | unknown => simp [hasBlock, TFList.IsNull, TFList.Elements] at h
  | known elems =>
    cases elems with
    | nil => simp [hasBlock, TFList.Elements] at h
    | cons x xs => exact ⟨x, xs, rfl⟩

theorem expandItem_no_block (acc : List NotificationConfiguration × List Diagnostic)
    (item : subscriberNotificationResourceConfigurationModel)
    (h1 : hasBlock item.SqsNotificationConfiguration = false)
    (h2 : hasBlock item.HTTPSNotificationConfiguration = false) :
    expandItem acc item = acc := by
  unfold hasBlock at h1 h2
  simp only [expandItem, h1, h2, Bool.false_eq_true, if_false]

theorem expandItem_sqs (acc : List NotificationConfiguration × List Diagnostic)
    (item : subscriberNotificationResourceConfigurationModel)
    (h1 : hasBlock item.SqsNotificationConfiguration = true) :
    ∃ zs, (expandItem acc item).1
      = acc.1 ++ NotificationConfiguration.MemberSqsNotificationConfiguration (some {}) :: zs := by
  obtain ⟨x, xs, hk⟩ := hasBlock_known _ h1
  unfold hasBlock at h1
  by_cases h2 : (!item.HTTPSNotificationConfiguration.IsNull
      && decide (item.HTTPSNotificationConfiguration.Elements.length > 0)) = true
  · refine ⟨[NotificationConfiguration.MemberHttpsNotificationConfiguration
        (expandHTTPSNotificationConfigurationModel
          item.HTTPSNotificationConfiguration.ElementsAs.2)], ?_⟩
    simp only [expandItem, h1, h2, if_true]
    simp [hk, TFList.ElementsAs, expandSQSNotificationConfigurationModel]
  · refine ⟨[], ?_⟩
    simp only [expandItem, h1, h2, if_true, if_false, Bool.false_eq_true]
    simp [hk, TFList.ElementsAs, expandSQSNotificationConfigurationModel]

theorem expandItem_https_only (acc : List NotificationConfiguration × List Diagnostic)
    (item : subscriberNotificationResourceConfigurationModel)
    (h1 : hasBlock item.SqsNotificationConfiguration = false)
    (h2 : hasBlock item.HTTPSNotificationConfiguration = true) :
    (expandItem acc item).1
      = acc.1 ++ [NotificationConfiguration.MemberHttpsNotificationConfiguration
          (expandHTTPSNotificationConfigurationModel
            item.HTTPSNotificationConfiguration.Elements)] := by
  obtain ⟨x, xs, hk⟩ := hasBlock_known _ h2
  unfold hasBlock at h1 h2
  simp only [expandItem, h1, h2, if_true, if_false, Bool.false_eq_true]
  simp [hk, TFList.ElementsAs, TFList.Elements]

theorem expandItem_extends (acc : List NotificationConfiguration × List Diagnostic)
    (item : subscriberNotificationResourceConfigurationModel) :
    ∃ zs, (expandItem acc item).1 = acc.1 ++ zs := by
  cases h1 : hasBlock item.SqsNotificationConfiguration with
  | true =>
    obtain ⟨zs, hz⟩ := expandItem_sqs acc item h1
    exact ⟨_, hz⟩
  | false =>
    cases h2 : hasBlock item.HTTPSNotificationConfiguration with
    | true => exact ⟨_, expandItem_https_only acc item h1 h2⟩
    | false => exact ⟨[], by rw [expandItem_no_block acc item h1 h2]; simp⟩

theorem foldl_expandItem_extends
    (models : List subscriberNotificationResourceConfigurationModel)
    (acc : List NotificationConfiguration × List Diagnostic) :
    ∃ zs, (models.foldl expandItem acc).1 = acc.1 ++ zs := by
  induction models generalizing acc with
  | nil => exact ⟨[], by simp⟩
  | cons m ms ih =>
    obtain ⟨zs, hz⟩ := expandItem_extends acc m
    obtain ⟨ws, hw⟩ := ih (expandItem acc m)
    exact ⟨zs ++ ws, by rw [List.foldl_cons, hw, hz, List.append_assoc]⟩

theorem expand_of_head (models : List subscriberNotificationResourceConfigurationModel)
    (item : subscriberNotificationResourceConfigurationModel)
    (first : NotificationConfiguration) (zs : List NotificationConfiguration)
    (h : (expandItem ([], []) item).1 = first :: zs) :
    expandSubscriberNotificationResourceConfiguration (item :: models) = some (first, []) := by
  obtain ⟨ws, hw⟩ := foldl_expandItem_extends models (expandItem ([], []) item)
  have hd := foldl_expandItem_diags (item :: models) ([], [])
  rw [List.foldl_cons] at hd
  unfold expandSubscriberNotificationResourceConfiguration
  simp only [List.foldl_cons, hw, h, List.cons_append, hd]

theorem expand_skip (models : List subscriberNotificationResourceConfigurationModel)
    (item : subscriberNotificationResourceConfigurationModel)
    (h1 : hasBlock item.SqsNotificationConfiguration = false)
    (h2 : hasBlock item.HTTPSNotificationConfiguration = false) :
    expandSubscriberNotificationResourceConfiguration (item :: models)
      = expandSubscriberNotificationResourceConfiguration models := by
  unfold expandSubscriberNotificationResourceConfiguration
  simp only [List.foldl_cons, expandItem_no_block _ item h1 h2]

/-- C15, the code at the failing input: a single configuration element with neither nested
block leaves the slice empty, the read of `configuration[0]` is out of range, and `Create`
on such a plan panics before any remote call. -/
theorem expand_panics_without_block :
    expandSubscriberNotificationResourceConfiguration [emptyConfigurationElement] = none
      ∧ [emptyConfigurationElement].length = 1
      ∧ (Create (lookupConn (none, none)) () ([], bareModel)).isNone = true := by
  refine ⟨?_, ?_, ?_⟩ <;> decide

/-- C16: whenever the first element of the list has a non-null, non-empty SQS block, the
result is the SQS member with an empty value, whatever its HTTPS block and the later
elements are; and whenever the result is the HTTPS member, the first element of the list
that has any non-empty block has no non-empty SQS block (and the result is the expansion
of its HTTPS block). -/
theorem expand_SQS_takes_precedence :
    (∀ first rest, hasBlock first.SqsNotificationConfiguration = true →
        expandSubscriberNotificationResourceConfiguration (first :: rest)
          = some (NotificationConfiguration.MemberSqsNotificationConfiguration (some {}), []))
    ∧ (∀ models p d,
        expandSubscriberNotificationResourceConfiguration models
          = some (NotificationConfiguration.MemberHttpsNotificationConfiguration p, d) →
        ∃ pre item post, models = pre ++ item :: post
          ∧ (∀ x ∈ pre, hasBlock x.SqsNotificationConfiguration = false
              ∧ hasBlock x.HTTPSNotificationConfiguration = false)
          ∧ hasBlock item.SqsNotificationConfiguration = false
          ∧ hasBlock item.HTTPSNotificationConfiguration = true
          ∧ p = expandHTTPSNotificationConfigurationModel
              item.HTTPSNotificationConfiguration.Elements) := by
  refine ⟨?_, ?_⟩
  · intro first rest h1
    obtain ⟨zs, hz⟩ := expandItem_sqs ([], []) first h1
    exact expand_of_head rest first _ zs (by simpa using hz)
  · intro models
    induction models with
    | nil =>
      intro p d h
      simp [expandSubscriberNotificationResourceConfiguration] at h
    | cons m ms ih =>
      intro p d h
      cases h1 : hasBlock m.SqsNotificationConfiguration with
      | true =>
        obtain ⟨zs, hz⟩ := expandItem_sqs ([], []) m h1
        rw [expand_of_head ms m _ zs (by simpa using hz)] at h
        simp at h
      | false =>
        cases h2 : hasBlock m.HTTPSNotificationConfiguration with
        | true =>
          have hz := expandItem_https_only ([], []) m h1 h2
          rw [expand_of_head ms m _ [] (by simpa using hz)] at h
          simp only [Option.some.injEq, Prod.mk.injEq,
            NotificationConfiguration.MemberHttpsNotificationConfiguration.injEq] at h
          exact ⟨[], m, ms, rfl, by simp, h1, h2, h.1.symm⟩
        | false =>
          rw [expand_skip ms m h1 h2] at h
          obtain ⟨pre, item, post, hm, hpre, hs, hh, hp⟩ := ih p d h
          refine ⟨m :: pre, item, post, by simp [hm], ?_, hs, hh, hp⟩
          intro x hx
          rcases List.mem_cons.1 hx with rfl | hx1
          · exact ⟨h1, h2⟩
          · exact hpre x hx1

/-! ## Read, continued -/

theorem InitFromID_of_split (data : subscriberNotificationResourceModel) (a b : String)
    (hsplit : stringsSplit data.ID.ValueString = [a, b]) (ha : a ≠ "") (hb : b ≠ "") :
    InitFromID data = ({ data with SubscriberID := TFString.value a }, none) := by
  simp [InitFromID, ExpandResourceId, subscriberNotificationIdPartCount, hsplit, ha, hb]

theorem InitFromID_ok (data : subscriberNotificationResourceModel)
    (h : (InitFromID data).2 = none) :
    ∃ a b, stringsSplit data.ID.ValueString = [a, b] ∧ a ≠ "" ∧ b ≠ ""
      ∧ InitFromID data = ({ data with SubscriberID := TFString.value a }, none) := by
  rcases ExpandResourceId_two_cases data.ID.ValueString with
    ⟨a, b, hsplit, ha, hb, _⟩ | ⟨_, e, herr⟩
  · exact ⟨a, b, hsplit, ha, hb, InitFromID_of_split data a b hsplit ha hb⟩
  · simp [InitFromID, subscriberNotificationIdPartCount, herr] at h

theorem Read_calls_of_split {σ : Type} (conn : Conn σ) (st : σ)
    (stateGet : List Diagnostic × subscriberNotificationResourceModel)
    (hget : HasError stateGet.1 = false) (a b : String)
    (hsplit : stringsSplit stateGet.2.ID.ValueString = [a, b]) (ha : a ≠ "") (hb : b ≠ "") :
    (Read conn st stateGet).calls = [Call.findSubscriberByID a] := by
  have hg : HasError (Append [] stateGet.1) = false := by
    rw [HasError_Append_nil]; exact hget
  have hI := InitFromID_of_split stateGet.2 a b hsplit ha hb
  simp only [Read, hg, hI, Bool.false_eq_true, if_false, TFString.ValueString]
  split
  · rfl
  · split <;> rfl

/-- C13: when the prior state decodes, its ID parses, and the lookup returns a subscriber
with ID `s` (non-empty, no comma) and endpoint `e`, the state written by `Read` has
`subscriber_id = s` and `endpoint_id = e`, while `id` and `configuration` are those of the
prior state; no diagnostic is added. -/
theorem Read_success_maps_response {σ : Type} (conn : Conn σ) (st st2 : σ)
    (stateGet : List Diagnostic × subscriberNotificationResourceModel)
    (sub : SubscriberResource) (s e : String)
    (hget : HasError stateGet.1 = false) (hid : (InitFromID stateGet.2).2 = none)
    (hfind : conn.findSubscriberByID st (InitFromID stateGet.2).1.SubscriberID.ValueString
      = ((some sub, none), st2))
    (hsid : sub.SubscriberId = some s) (hend : sub.SubscriberEndpoint = some e)
    (hne : s ≠ "") (hc : ',' ∉ s.data) :
    (Read conn st stateGet).State = StateAction.set
        { Configuration := stateGet.2.Configuration
          EndpointID := TFString.value e
          SubscriberID := TFString.value s
          ID := stateGet.2.ID }
      ∧ (Read conn st stateGet).Diagnostics = Append [] stateGet.1 := by
  have hg : HasError (Append [] stateGet.1) = false := by
    rw [HasError_Append_nil]; exact hget
  obtain ⟨a, b, _, _, _, hI⟩ := InitFromID_ok stateGet.2 hid
  rw [hI] at hfind
  have hf : findSubscriberNotificationByEndPointID conn st a
      = ((some (s ++ String.singleton ',' ++ "notification"), some e, none), st2) := by
    simp only [TFString.ValueString] at hfind
    simp [findSubscriberNotificationByEndPointID, hfind, hsid, hend, awsToString]
  have hE := ExpandResourceId_compound s "notification" hc notification_no_sep hne (by decide)
  simp only [ResourceIdSeparator] at hE
  simp [Read, hg, hI, TFString.ValueString, hf, NotFound, awsToString,
    subscriberNotificationIdPartCount, hE, StringToFramework]

/-- Witness for C13: the imported state against a lookup returning the subscriber `sub-1`
with the endpoint `endpoint-1`. -/
theorem Read_success_maps_response_witness :
    (Read (lookupConn (some ⟨some "sub-1", some "endpoint-1"⟩, none)) ()
        ([], importedState)).State = StateAction.set
        { Configuration := importedState.Configuration
          EndpointID := TFString.value "endpoint-1"
          SubscriberID := TFString.value "sub-1"
          ID := importedState.ID }
      ∧ (Read (lookupConn (some ⟨some "sub-1", some "endpoint-1"⟩, none)) ()
        ([], importedState)).Diagnostics = Append [] [] :=
  Read_success_maps_response (lookupConn (some ⟨some "sub-1", some "endpoint-1"⟩, none)) () ()
    ([], importedState) ⟨some "sub-1", some "endpoint-1"⟩ "sub-1" "endpoint-1"
    rfl (by decide) rfl rfl rfl (by decide) (by decide)

/-- C17: for every prior state that decodes and whose ID parses, the only remote call of
`Read` is the lookup of the first comma-separated part of the ID; the same lookup is made
from every other decoded state whose ID has the same first part, whatever its stored
`subscriber_id` and whatever the (non-empty) second part. -/
theorem Read_lookup_uses_first_part {σ : Type} (conn : Conn σ) (st : σ)
    (stateGet : List Diagnostic × subscriberNotificationResourceModel)
    (hget : HasError stateGet.1 = false) (hid : (InitFromID stateGet.2).2 = none) :
    ∃ a b, stringsSplit stateGet.2.ID.ValueString = [a, b]
      ∧ (Read conn st stateGet).calls = [Call.findSubscriberByID a]
      ∧ ∀ (other : List Diagnostic × subscriberNotificationResourceModel) (b1 : String),
          HasError other.1 = false → b1 ≠ "" →
          stringsSplit other.2.ID.ValueString = [a, b1] →
          (Read conn st other).calls = [Call.findSubscriberByID a] := by
  obtain ⟨a, b, hsplit, ha, hb, _⟩ := InitFromID_ok stateGet.2 hid
  refine ⟨a, b, hsplit, Read_calls_of_split conn st stateGet hget a b hsplit ha hb, ?_⟩
  intro other b1 hother hb1 hsplit1
  exact Read_calls_of_split conn st other hother a b1 hsplit1 ha hb1

/-- Witness for C17: the imported state, whose stored `subscriber_id` is null. -/
theorem Read_lookup_uses_first_part_witness :
    ∃ a b, stringsSplit importedState.ID.ValueString = [a, b]
      ∧ (Read (lookupConn (none, none)) () ([], importedState)).calls
          = [Call.findSubscriberByID a]
      ∧ ∀ (other : List Diagnostic × subscriberNotificationResourceModel) (b1 : String),
          HasError other.1 = false → b1 ≠ "" →
          stringsSplit other.2.ID.ValueString = [a, b1] →
          (Read (lookupConn (none, none)) () other).calls = [Call.findSubscriberByID a] :=
  Read_lookup_uses_first_part (lookupConn (none, none)) () ([], importedState) rfl (by decide)

/-! ## Create, continued -/

theorem splitSep_append_sep_general (sep : Char) (a b : List Char) :
    splitSep sep (a ++ sep :: b) = splitSep sep a ++ splitSep sep b := by
  induction a with
  | nil => simp [splitSep]
  | cons c cs ih =>
    by_cases hc : c = sep
    · simp [splitSep, hc, ← ih]
    · have hne := splitSep_ne_nil sep cs
      cases hs : splitSep sep cs with
      | nil => exact absurd hs hne
      | cons q qs =>
        simp only [List.cons_append, splitSep, hc, if_false, List.append_eq, ih, hs]

theorem splitSep_singleton_inv (sep : Char) (l p : List Char) (h : splitSep sep l = [p]) :
    p = l ∧ sep ∉ l := by
  induction l generalizing p with
  | nil =>
    simp [splitSep] at h
    simp [h]
  | cons c cs ih =>
    by_cases hc : c = sep
    · have hne := splitSep_ne_nil sep cs
      simp [splitSep, hc] at h
      exact absurd h.2 hne
    · cases hs : splitSep sep cs with
      | nil => exact absurd hs (splitSep_ne_nil sep cs)
      | cons q qs =>
        simp only [splitSep, hc, if_false, hs, List.cons.injEq] at h
        obtain ⟨hq, hqs⟩ := h
        subst hqs
        obtain ⟨hql, hmem⟩ := ih q hs
        refine ⟨by rw [← hq, hql], ?_⟩
        intro hm
        rcases List.mem_cons.1 hm with h1 | h1
        · exact hc h1.symm
        · exact hmem h1

theorem stringsSplit_compound_inv (x a b : String)
    (h : stringsSplit (x ++ String.singleton ',' ++ "notification") = [a, b]) :
    a = x ∧ b = "notification" ∧ ',' ∉ x.data := by
  have hd : (x ++ String.singleton ',' ++ "notification").data
      = x.data ++ ',' :: "notification".data := by
    simp [String.data_append, String.singleton]
  have hn : splitSep ',' "notification".data = ["notification".data] :=
    splitSep_of_not_mem _ _ notification_no_sep
  simp only [stringsSplit, ResourceIdSeparator, hd, splitSep_append_sep_general, hn,
    List.map_append, List.map_cons, List.map_nil] at h
  cases hs : splitSep ',' x.data with
  | nil => exact absurd hs (splitSep_ne_nil _ _)
  | cons q qs =>
    cases qs with
    | nil =>
      obtain ⟨hq, hmem⟩ := splitSep_singleton_inv _ _ _ hs
      simp only [hs, List.map_cons, List.map_nil, List.singleton_append, List.cons.injEq,
        and_true] at h
      refine ⟨?_, h.2.symm, hmem⟩
      rw [← h.1, hq]
    | cons q1 qs1 =>
      simp [hs] at h

theorem find_ok_shape {σ : Type} (conn : Conn σ) (st : σ) (subscriberID : String)
    (h : (findSubscriberNotificationByEndPointID conn st subscriberID).1.2.2 = none) :
    ∃ (sub : SubscriberResource) (endpoint : String),
      (findSubscriberNotificationByEndPointID conn st subscriberID).1
        = (some (awsToString sub.SubscriberId ++ String.singleton ',' ++ "notification"),
            some endpoint, none) := by
  unfold findSubscriberNotificationByEndPointID at h ⊢
  cases he : (conn.findSubscriberByID st subscriberID).1.2 with
  | some err => simp [he] at h
  | none =>
    cases ho : (conn.findSubscriberByID st subscriberID).1.1 with
    | none => simp [he, ho] at h
    | some output =>
      cases hp : output.SubscriberEndpoint with
      | none => simp [he, ho, hp] at h
      | some endpoint => exact ⟨output, endpoint, by simp [he, ho, hp]⟩

theorem ExpandResourceId_compound_inv (x : String) (parts : List String)
    (h : ExpandResourceId (x ++ String.singleton ',' ++ "notification") 2 false
      = Except.ok parts) :
    parts = [x, "notification"] ∧ x ≠ "" := by
  rcases ExpandResourceId_two_cases (x ++ String.singleton ',' ++ "notification") with
    ⟨a, b, hsplit, ha, _, hok⟩ | ⟨_, e, herr⟩
  · obtain ⟨hax, hbn, _⟩ := stringsSplit_compound_inv x a b hsplit
    rw [hok] at h
    simp only [Except.ok.injEq] at h
    subst hax hbn
    exact ⟨h.symm, ha⟩
  · rw [herr] at h
    simp at h

theorem awsToString_some (s : String) : awsToString (some s) = s := rfl

/-- C18: `Create` panics only when the expander does, so the `errs.Must` inside `setID` never
fails there; and on every run of `Create` that writes a state (the runs that reach `setID`)
the resource ID returned by the lookup was parsed by `ExpandResourceId` into a non-empty
first part and `notification`, `SubscriberID` holds that first part, `FlattenResourceId` on
`[SubscriberID, "notification"]` returns that same resource ID without error, and it is the
ID written. -/
theorem Create_setID_cannot_fail {σ : Type} (conn : Conn σ) (st : σ)
    (planGet : List Diagnostic × subscriberNotificationResourceModel) :
    (Create conn st planGet = none →
        expandSubscriberNotificationResourceConfiguration
          planGet.2.Configuration.ElementsAs.2 = none)
    ∧ (∀ r data2, Create conn st planGet = some r → r.State = StateAction.set data2 →
        ∃ cfg d rid endpoint a,
          expandSubscriberNotificationResourceConfiguration
              planGet.2.Configuration.ElementsAs.2 = some (cfg, d)
          ∧ (findSubscriberNotificationByEndPointID conn
              (conn.CreateSubscriberNotification st
                ⟨StringFromFramework planGet.2.SubscriberID, cfg⟩).2
              planGet.2.SubscriberID.ValueString).1 = (some rid, endpoint, none)
          ∧ ExpandResourceId rid subscriberNotificationIdPartCount false
              = Except.ok [a, "notification"]
          ∧ a ≠ ""
          ∧ data2.SubscriberID = TFString.value a
          ∧ FlattenResourceId [data2.SubscriberID.ValueString, "notification"]
              subscriberNotificationIdPartCount false = Except.ok rid
          ∧ data2.ID = TFString.value rid) := by
  by_cases hg : HasError (Append [] planGet.1) = true
  · have hC : Create conn st planGet
        = some ⟨Append [] planGet.1, StateAction.untouched, [], st⟩ := by
      simp only [Create, hg, if_true]
    refine ⟨fun h => ?_, fun r data2 hr hs => ?_⟩
    · rw [hC] at h; simp at h
    · rw [hC] at hr; injection hr with hr; subst hr; simp at hs
  by_cases hg2 : HasError (Append (Append [] planGet.1)
      planGet.2.Configuration.ElementsAs.1) = true
  · have hC : Create conn st planGet
        = some ⟨Append (Append [] planGet.1) planGet.2.Configuration.ElementsAs.1,
            StateAction.untouched, [], st⟩ := by
      simp only [Create, hg, hg2, if_true, if_false, Bool.false_eq_true]
    refine ⟨fun h => ?_, fun r data2 hr hs => ?_⟩
    · rw [hC] at h; simp at h
    · rw [hC] at hr; injection hr with hr; subst hr; simp at hs
  cases hx : expandSubscriberNotificationResourceConfiguration
      planGet.2.Configuration.ElementsAs.2 with
  | none =>
    have hC : Create conn st planGet = none := by
      simp only [Create, hg, hg2, hx, if_false, Bool.false_eq_true]
    refine ⟨fun _ => rfl, fun r data2 hr _ => ?_⟩
    rw [hC] at hr; simp at hr
  | some res =>
    obtain ⟨cfg, d⟩ := res
    cases hc : (conn.CreateSubscriberNotification st
        ⟨StringFromFramework planGet.2.SubscriberID, cfg⟩).1 with
    | some err =>
      have hC : (Create conn st planGet).map (fun r => r.State)
          = some StateAction.untouched := by
        simp only [Create, hg, hg2, hx, hc, if_false, Bool.false_eq_true, Option.map_some']
      refine ⟨fun h => ?_, fun r data2 hr hs => ?_⟩
      · rw [h] at hC; simp at hC
      · rw [hr] at hC; simp [hs] at hC
    | none =>
      cases hf : (findSubscriberNotificationByEndPointID conn
          (conn.CreateSubscriberNotification st
            ⟨StringFromFramework planGet.2.SubscriberID, cfg⟩).2
          planGet.2.SubscriberID.ValueString).1.2.2 with
      | some err =>
        have hC : (Create conn st planGet).map (fun r => r.State)
            = some StateAction.untouched := by
          simp only [Create, hg, hg2, hx, hc, hf, if_false, Bool.false_eq_true, Option.map_some']
        refine ⟨fun h => ?_, fun r data2 hr hs => ?_⟩
        · rw [h] at hC; simp at hC
        · rw [hr] at hC; simp [hs] at hC
      | none =>
        obtain ⟨sub, endpoint, hshape⟩ := find_ok_shape conn _ _ hf
        cases hE : ExpandResourceId
            (awsToString sub.SubscriberId ++ String.singleton ',' ++ "notification")
            2 false with
        | error err =>
          have hC : (Create conn st planGet).map (fun r => r.State)
              = some StateAction.untouched := by
            simp only [Create, hg, hg2, hx, hc, hf, hshape, awsToString_some,
              subscriberNotificationIdPartCount, hE, if_false, Bool.false_eq_true, Option.map_some']
          refine ⟨fun h => ?_, fun r data2 hr hs => ?_⟩
          · rw [h] at hC; simp at hC
          · rw [hr] at hC; simp [hs] at hC
        | ok parts =>
          obtain ⟨hparts, hne⟩ := ExpandResourceId_compound_inv _ _ hE
          subst hparts
          have hF : FlattenResourceId [awsToString sub.SubscriberId, "notification"] 2 false
              = Except.ok
                (awsToString sub.SubscriberId ++ String.singleton ',' ++ "notification") := by
            simp [FlattenResourceId, hne, stringsJoin, ResourceIdSeparator]
          have hS : setID { planGet.2 with
                SubscriberID := StringToFramework (some (awsToString sub.SubscriberId))
                EndpointID := StringToFramework (some endpoint) }
              = some { Configuration := planGet.2.Configuration
                       EndpointID := StringToFramework (some endpoint)
                       SubscriberID := TFString.value (awsToString sub.SubscriberId)
                       ID := TFString.value (awsToString sub.SubscriberId
                         ++ String.singleton ',' ++ "notification") } := by
            simp only [setID, StringToFramework, TFString.ValueString,
              subscriberNotificationIdPartCount, hF]
          have hC : (Create conn st planGet).map (fun r => r.State)
              = some (StateAction.set
                  { Configuration := planGet.2.Configuration
                    EndpointID := StringToFramework (some endpoint)
                    SubscriberID := TFString.value (awsToString sub.SubscriberId)
                    ID := TFString.value (awsToString sub.SubscriberId
                      ++ String.singleton ',' ++ "notification") }) := by
            simp only [Create, hg, hg2, hx, hc, hf, hshape, awsToString_some,
              subscriberNotificationIdPartCount, hE, if_false, Bool.false_eq_true,
              List.getD_cons_zero, hS, Option.map_some']
          refine ⟨fun h => ?_, fun r data2 hr hs => ?_⟩
          · rw [h] at hC; simp at hC
          · rw [hr] at hC
            simp only [Option.map_some', hs, Option.some.injEq, StateAction.set.injEq] at hC
            subst hC
            exact ⟨cfg, d, _, some endpoint, awsToString sub.SubscriberId, rfl, hshape,
              hE, hne, rfl, hF, rfl⟩

/-! ## Destroy check -/

theorem destroy_cons_skip (env : TestEnv) (rs : ResourceState) (rest : List ResourceState)
    (h : rs.TypeName ≠ "aws_securitylake_data_lake") :
    testAccCheckDataLakeDestroy env (rs :: rest) = testAccCheckDataLakeDestroy env rest := by
  simp [testAccCheckDataLakeDestroy, h]

theorem destroy_cons_not_found (env : TestEnv) (rs : ResourceState) (rest : List ResourceState)
    (h : rs.TypeName = "aws_securitylake_data_lake")
    (hnf : NotFound (env.FindDataLakeByARN rs.PrimaryID) = true) :
    testAccCheckDataLakeDestroy env (rs :: rest) = testAccCheckDataLakeDestroy env rest := by
  simp [testAccCheckDataLakeDestroy, h, hnf]

theorem destroy_cons_decides (env : TestEnv) (rs : ResourceState) (rest : List ResourceState)
    (h : rs.TypeName = "aws_securitylake_data_lake")
    (hnf : NotFound (env.FindDataLakeByARN rs.PrimaryID) = false) :
    testAccCheckDataLakeDestroy env (rs :: rest)
      = match env.FindDataLakeByARN rs.PrimaryID with
        | some e => some e
        | none => some (notDestroyedError env rs.PrimaryID) := by
  simp [testAccCheckDataLakeDestroy, h, hnf]

theorem destroy_nil_iff (env : TestEnv) (resources : List ResourceState) :
    testAccCheckDataLakeDestroy env resources = none ↔
      ∀ rs ∈ resources, rs.TypeName = "aws_securitylake_data_lake" →
        NotFound (env.FindDataLakeByARN rs.PrimaryID) = true := by
  induction resources with
  | nil => simp [testAccCheckDataLakeDestroy]
  | cons rs rest ih =>
    by_cases h : rs.TypeName = "aws_securitylake_data_lake"
    · cases hnf : NotFound (env.FindDataLakeByARN rs.PrimaryID) with
      | true =>
        rw [destroy_cons_not_found env rs rest h hnf, ih]
        simp [h, hnf]
      | false =>
        rw [destroy_cons_decides env rs rest h hnf]
        constructor
        · intro hn
          cases hf : env.FindDataLakeByARN rs.PrimaryID <;> simp [hf] at hn
        · intro hall
          have := hall rs (List.mem_cons_self _ _) h
          rw [hnf] at this
          exact absurd this Bool.false_ne_true
    · rw [destroy_cons_skip env rs rest h, ih]
      simp [h]

theorem destroy_filter (env : TestEnv) (resources : List ResourceState) :
    testAccCheckDataLakeDestroy env resources
      = testAccCheckDataLakeDestroy env
          (resources.filter (fun rs => decide (rs.TypeName = "aws_securitylake_data_lake"))) := by
  induction resources with
  | nil => rfl
  | cons rs rest ih =>
    by_cases h : rs.TypeName = "aws_securitylake_data_lake"
    · simp only [List.filter_cons, h, decide_True, if_true]
      simp only [testAccCheckDataLakeDestroy, h, ih]
    · simp only [List.filter_cons, h, decide_False, Bool.false_eq_true, if_false]
      rw [destroy_cons_skip env rs rest h, ih]

theorem destroy_first_decides (env : TestEnv) (pre : List ResourceState) (rs : ResourceState)
    (post : List ResourceState)
    (hpre : ∀ x ∈ pre, x.TypeName = "aws_securitylake_data_lake" →
      NotFound (env.FindDataLakeByARN x.PrimaryID) = true)
    (h : rs.TypeName = "aws_securitylake_data_lake")
    (hnf : NotFound (env.FindDataLakeByARN rs.PrimaryID) = false) :
    testAccCheckDataLakeDestroy env (pre ++ rs :: post)
      = match env.FindDataLakeByARN rs.PrimaryID with
        | some e => some e
        | none => some (notDestroyedError env rs.PrimaryID) := by
  induction pre with
  | nil => exact destroy_cons_decides env rs post h hnf
  | cons x xs ih =>
    have hxs : ∀ y ∈ xs, y.TypeName = "aws_securitylake_data_lake" →
        NotFound (env.FindDataLakeByARN y.PrimaryID) = true :=
      fun y hy => hpre y (List.mem_cons_of_mem _ hy)
    by_cases hx : x.TypeName = "aws_securitylake_data_lake"
    · rw [List.cons_append,
        destroy_cons_not_found env x _ hx (hpre x (List.mem_cons_self _ _) hx)]
      exact ih hxs
    · rw [List.cons_append, destroy_cons_skip env x _ hx]
      exact ih hxs

theorem destroy_not_destroyed (env : TestEnv) (resources : List ResourceState)
    (hex : ∃ rs ∈ resources, rs.TypeName = "aws_securitylake_data_lake"
      ∧ env.FindDataLakeByARN rs.PrimaryID = none)
    (hall : ∀ rs ∈ resources, rs.TypeName = "aws_securitylake_data_lake" →
      ∀ e, env.FindDataLakeByARN rs.PrimaryID = some e → NotFound (some e) = true) :
    ∃ rs ∈ resources, rs.TypeName = "aws_securitylake_data_lake"
      ∧ env.FindDataLakeByARN rs.PrimaryID = none
      ∧ testAccCheckDataLakeDestroy env resources
          = some (notDestroyedError env rs.PrimaryID) := by
  induction resources with
  | nil =>
    obtain ⟨rs, hm, _⟩ := hex
    simp at hm
  | cons x xs ih =>
    have hall1 : ∀ rs ∈ xs, rs.TypeName = "aws_securitylake_data_lake" →
        ∀ e, env.FindDataLakeByARN rs.PrimaryID = some e → NotFound (some e) = true :=
      fun rs hrs => hall rs (List.mem_cons_of_mem _ hrs)
    have lift : (∃ rs ∈ xs, rs.TypeName = "aws_securitylake_data_lake"
          ∧ env.FindDataLakeByARN rs.PrimaryID = none) →
        testAccCheckDataLakeDestroy env (x :: xs) = testAccCheckDataLakeDestroy env xs →
        ∃ rs ∈ x :: xs, rs.TypeName = "aws_securitylake_data_lake"
          ∧ env.FindDataLakeByARN rs.PrimaryID = none
          ∧ testAccCheckDataLakeDestroy env (x :: xs)
              = some (notDestroyedError env rs.PrimaryID) := by
      intro hex1 heq
      obtain ⟨rs, hm, ht, hf, hr⟩ := ih hex1 hall1
      exact ⟨rs, List.mem_cons_of_mem _ hm, ht, hf, by rw [heq, hr]⟩
    by_cases hx : x.TypeName = "aws_securitylake_data_lake"
    · cases hf : env.FindDataLakeByARN x.PrimaryID with
      | none =>
        refine ⟨x, List.mem_cons_self _ _, hx, hf, ?_⟩
        rw [destroy_cons_decides env x xs hx (by rw [hf]; rfl), hf]
      | some e =>
        have hnf : NotFound (env.FindDataLakeByARN x.PrimaryID) = true := by
          rw [hf]; exact hall x (List.mem_cons_self _ _) hx e hf
        obtain ⟨rs, hm, ht, hfr⟩ := hex
        rcases List.mem_cons.1 hm with rfl | hm1
        · rw [hf] at hfr; simp at hfr
        · exact lift ⟨rs, hm1, ht, hfr⟩ (destroy_cons_not_found env x xs hx hnf)
    · obtain ⟨rs, hm, ht, hfr⟩ := hex
      rcases List.mem_cons.1 hm with rfl | hm1
      · exact absurd ht hx
      · exact lift ⟨rs, hm1, ht, hfr⟩ (destroy_cons_skip env x xs hx)

/-- C19, counterexample: with two data lakes in the state, the first visited failing with an
access error and the second still existing, some data lake lookup succeeds but the result
is the access error, not a "not destroyed" error. -/
theorem destroy_hard_error_hides_survivor :
    (∃ rs ∈ mixedResources, rs.TypeName = "aws_securitylake_data_lake"
        ∧ mixedEnv.FindDataLakeByARN rs.PrimaryID = none)
      ∧ testAccCheckDataLakeDestroy mixedEnv mixedResources
          = some (Err.other "AccessDeniedException")
      ∧ ∀ rs ∈ mixedResources, testAccCheckDataLakeDestroy mixedEnv mixedResources
          ≠ some (notDestroyedError mixedEnv rs.PrimaryID) := by
  refine ⟨⟨⟨"aws_securitylake_data_lake", "arn:alive"⟩, by decide, rfl, by decide⟩, ?_, ?_⟩
  · decide
  · decide

/-- C19, amended: the destroy check returns nil exactly when the lookup of every data lake
resource of the root module reports not found; resources of other types never influence
the result; the result is decided by the first data lake resource visited whose lookup is
not a not-found: its error, or a "not destroyed" error when the lookup succeeds; so when
some data lake lookup succeeds and none fails with an error that is not a not-found the
result is a "not destroyed" error, and when some lookup fails with an error that is not a
not-found the result is an error. -/
theorem testAccCheckDataLakeDestroy_spec (env : TestEnv) (resources : List ResourceState) :
    (testAccCheckDataLakeDestroy env resources = none ↔
        ∀ rs ∈ resources, rs.TypeName = "aws_securitylake_data_lake" →
          NotFound (env.FindDataLakeByARN rs.PrimaryID) = true)
    ∧ testAccCheckDataLakeDestroy env resources
        = testAccCheckDataLakeDestroy env
            (resources.filter (fun rs => decide (rs.TypeName = "aws_securitylake_data_lake")))
    ∧ (∀ pre rs post, resources = pre ++ rs :: post →
        (∀ x ∈ pre, x.TypeName = "aws_securitylake_data_lake" →
          NotFound (env.FindDataLakeByARN x.PrimaryID) = true) →
        rs.TypeName = "aws_securitylake_data_lake" →
        NotFound (env.FindDataLakeByARN rs.PrimaryID) = false →
        testAccCheckDataLakeDestroy env resources
          = match env.FindDataLakeByARN rs.PrimaryID with
            | some e => some e
            | none => some (notDestroyedError env rs.PrimaryID))
    ∧ ((∃ rs ∈ resources, rs.TypeName = "aws_securitylake_data_lake"
          ∧ env.FindDataLakeByARN rs.PrimaryID = none) →
        (∀ rs ∈ resources, rs.TypeName = "aws_securitylake_data_lake" →
          ∀ e, env.FindDataLakeByARN rs.PrimaryID = some e → NotFound (some e) = true) →
        ∃ rs ∈ resources, rs.TypeName = "aws_securitylake_data_lake"
          ∧ env.FindDataLakeByARN rs.PrimaryID = none
          ∧ testAccCheckDataLakeDestroy env resources
              = some (notDestroyedError env rs.PrimaryID))
    ∧ ((∃ rs ∈ resources, rs.TypeName = "aws_securitylake_data_lake"
          ∧ ∃ e, env.FindDataLakeByARN rs.PrimaryID = some e ∧ NotFound (some e) = false) →
        ∃ e, testAccCheckDataLakeDestroy env resources = some e) := by
  refine ⟨destroy_nil_iff env resources, destroy_filter env resources, ?_,
    destroy_not_destroyed env resources, ?_⟩
  · intro pre rs post hres hpre h hnf
    rw [hres]
    exact destroy_first_decides env pre rs post hpre h hnf
  · rintro ⟨rs, hm, ht, e, hf, hnf⟩
    cases hr : testAccCheckDataLakeDestroy env resources with
    | some e1 => exact ⟨e1, rfl⟩
    | none =>
      have := (destroy_nil_iff env resources).1 hr rs hm ht
      rw [hf, hnf] at this
      exact absurd this Bool.false_ne_true

end SecurityLake
